import Mathlib

/-!
# Honeywell RSC pressure sensor driver

A shallow embedding of `lib/Honeywell_RSC/Honeywell_RSC.cpp`.

* The Arduino runtime (pins, SPI, delays, the serial console) is a `World`:
  the output level latched on every pin, the open SPI transaction, the bytes
  the selected device shifts out, the coming samples of the data-ready line
  and a chronological trace of every runtime call.
* The driver object is the record `Honeywell_RSC`; a member function is a
  function on `Machine` (object and world together).
* The constants and enumerator values of `Honeywell_RSC.h`, which is not part
  of the sources, are the fields of `Header`.
* A `float` is an `F32`: an exact rational, a negative zero, an infinity or a
  NaN.  Zero signs, infinities and NaN follow IEEE 754; rounding, overflow and
  underflow of finite results are not modelled.
-/

namespace RSC

/-! ## Machine integers -/

/-- One `uint8_t`. -/
abbrev Byte := Fin 256

/-- Storing an `int` into a `uint8_t` keeps the value modulo 256. -/
def u8 (n : Nat) : Byte := ⟨n % 256, Nat.mod_lt _ (by decide)⟩

/-- The `uint8_t` code of a character constant. -/
def ch (c : Char) : Byte := u8 c.toNat

/-- Reinterpreting a 32-bit pattern as `int32_t` (two's complement). -/
def toInt32 (n : Nat) : Int :=
  if n % 2 ^ 32 < 2 ^ 31 then (n % 2 ^ 32 : Nat) else (n % 2 ^ 32 : Nat) - 2 ^ 32

/-! ## Single-precision values -/

/-- A `float` value: a finite rational (`fin 0` is `+0.0`), `-0.0`, an
infinity with its sign bit, or NaN. -/
inductive F32 where
  | fin (q : ℚ)
  | nzero
  | inf (neg : Bool)
  | nan
  deriving DecidableEq

namespace F32

/-- The zero with the given sign bit. -/
def zero (neg : Bool) : F32 := if neg then nzero else fin 0

/-- Sign bit of a value (NaN carries none that matters here). -/
def sign : F32 → Bool
  | fin q => decide (q < 0)
  | nzero => true
  | inf s => s
  | nan => false

/-- Numeric value of a finite operand. -/
def mag : F32 → ℚ
  | fin q => q
  | _ => 0

/-- Both zeros. -/
def isZero : F32 → Bool
  | fin q => decide (q = 0)
  | nzero => true
  | _ => false

/-- A finite result `q` whose zero, if it is one, takes the sign bit `s`. -/
def finite (q : ℚ) (s : Bool) : F32 := if q = 0 then zero s else fin q

/-- The real number a finite value stands for; none for infinities and NaN. -/
def toRat? : F32 → Option ℚ
  | fin q => some q
  | nzero => some 0
  | _ => none

/-- IEEE 754 negation. -/
def neg : F32 → F32
  | fin q => if q = 0 then nzero else fin (-q)
  | nzero => fin 0
  | inf s => inf (!s)
  | nan => nan

/-- IEEE 754 multiplication (`0 * inf` is NaN; a zero product takes the
exclusive-or of the sign bits). -/
def mul : F32 → F32 → F32
  | nan, _ => nan
  | _, nan => nan
  | inf s, b => if b.isZero then nan else inf (xor s b.sign)
  | a, inf t => if a.isZero then nan else inf (xor a.sign t)
  | a, b => finite (a.mag * b.mag) (xor a.sign b.sign)

/-- IEEE 754 addition, round to nearest (`inf + -inf` is NaN; an exact zero
sum is `-0.0` only when both operands are negative zeros). -/
def add : F32 → F32 → F32
  | nan, _ => nan
  | _, nan => nan
  | inf s, inf t => if s = t then inf s else nan
  | inf s, _ => inf s
  | _, inf t => inf t
  | a, b => finite (a.mag + b.mag) (a.sign && b.sign)

/-- IEEE 754 subtraction: adding the negated operand. -/
def sub (a b : F32) : F32 := add a (neg b)

/-- IEEE 754 division (`x / 0` is an infinity for `x` non-zero, `0 / 0` and
`inf / inf` are NaN). -/
def div : F32 → F32 → F32
  | nan, _ => nan
  | _, nan => nan
  | inf _, inf _ => nan
  | inf s, b => inf (xor s b.sign)
  | a, inf t => zero (xor a.sign t)
  | a, b =>
    if b.isZero then (if a.isZero then nan else inf (xor a.sign b.sign))
    else finite (a.mag / b.mag) (xor a.sign b.sign)

instance : Neg F32 := ⟨neg⟩
instance : Mul F32 := ⟨mul⟩
instance : Add F32 := ⟨add⟩
instance : Sub F32 := ⟨sub⟩
instance : Div F32 := ⟨div⟩

/-- Conversion of an integer to floating point. -/
def ofInt (n : Int) : F32 := fin n

/-- The value of an IEEE 754 binary32 bit pattern. -/
def ofBits (bits : Nat) : F32 :=
  let s : Bool := decide (bits / 2 ^ 31 % 2 = 1)
  let e : Nat := bits / 2 ^ 23 % 256
  let m : Nat := bits % 2 ^ 23
  let sgn : ℚ := if s then -1 else 1
  if e = 255 then (if m = 0 then inf s else nan)
  else if e = 0 then (if m = 0 then zero s else fin (sgn * m / 2 ^ 149))
  else fin (sgn * (2 ^ 23 + m) * 2 ^ e / 2 ^ 150)

/-- The `memcpy` of four bytes into a `float` on a little-endian host
(`buf[0]` is the least significant byte); a byte missing from the buffer
reads as zero. -/
def ofBytes (buf : List Byte) : F32 :=
  ofBits ((buf.getD 0 0).val + 2 ^ 8 * (buf.getD 1 0).val
    + 2 ^ 16 * (buf.getD 2 0).val + 2 ^ 24 * (buf.getD 3 0).val)

end F32

/-! ## The Arduino runtime -/

/-- Level of a digital pin. -/
inductive Level where
  | LOW
  | HIGH
  deriving DecidableEq, Repr

/-- Argument of `pinMode`. -/
inductive PinMode where
  | INPUT
  | OUTPUT
  deriving DecidableEq, Repr

/-- Bit order of an SPI transaction. -/
inductive BitOrder where
  | LSBFIRST
  | MSBFIRST
  deriving DecidableEq, Repr

/-- Clock polarity and phase of an SPI transaction. -/
inductive SPIMode where
  | SPI_MODE0
  | SPI_MODE1
  deriving DecidableEq, Repr

/-- The `SPISettings` of a transaction. -/
structure SPISettings where
  clock : Nat
  bitOrder : BitOrder
  dataMode : SPIMode
  deriving DecidableEq, Repr

/-- One call into the runtime, as recorded in the trace. -/
inductive Event where
  | pinMode (pin : Int) (mode : PinMode)
  | digitalWrite (pin : Int) (v : Level)
  | digitalRead (pin : Int) (v : Level)
  | beginTransaction (s : SPISettings)
  | endTransaction
  | transfer (tx rx : Byte)
  | delay (ms : Nat)
  | delayMicroseconds (us : Nat)
  | serial (text : String)
  deriving DecidableEq, Repr

/-- The hardware and its environment. -/
structure World where
  /-- Level latched on each pin by the last `digitalWrite`. -/
  pin : Int → Level
  /-- Settings of the SPI transaction that is open, if one is. -/
  spi : Option SPISettings
  /-- Byte the bus returns on the k-th `SPI.transfer` since power-up. -/
  miso : Nat → Byte
  /-- Number of `SPI.transfer` calls made so far. -/
  clocked : Nat
  /-- Levels the coming `digitalRead` calls will see on the data-ready pin. -/
  inputs : List Level
  /-- Every runtime call made so far, oldest first. -/
  trace : List Event

namespace World

/-- The call `pinMode(pin, mode)`. -/
def pinMode (p : Int) (mode : PinMode) (w : World) : World :=
  { w with trace := w.trace ++ [Event.pinMode p mode] }

/-- The call `digitalWrite(pin, v)`. -/
def digitalWrite (p : Int) (v : Level) (w : World) : World :=
  { w with pin := fun q => if q = p then v else w.pin q,
           trace := w.trace ++ [Event.digitalWrite p v] }

/-- The call `SPI.beginTransaction(s)`. -/
def beginTransaction (s : SPISettings) (w : World) : World :=
  { w with spi := some s, trace := w.trace ++ [Event.beginTransaction s] }

/-- The call `SPI.endTransaction()`. -/
def endTransaction (w : World) : World :=
  { w with spi := none, trace := w.trace ++ [Event.endTransaction] }

/-- The call `SPI.transfer(tx)`: the byte received and the world after it. -/
def transfer (tx : Byte) (w : World) : Byte × World :=
  (w.miso w.clocked,
   { w with clocked := w.clocked + 1,
            trace := w.trace ++ [Event.transfer tx (w.miso w.clocked)] })

/-- The call `delay(ms)`. -/
def delay (ms : Nat) (w : World) : World :=
  { w with trace := w.trace ++ [Event.delay ms] }

/-- The call `delayMicroseconds(us)`. -/
def delayMicroseconds (us : Nat) (w : World) : World :=
  { w with trace := w.trace ++ [Event.delayMicroseconds us] }

/-- A `Serial.print` or `Serial.println` of the given text. -/
def serial (text : String) (w : World) : World :=
  { w with trace := w.trace ++ [Event.serial text] }

/-- The loop `while (digitalRead(pin) == v) { }` run over the samples `xs`
that are still to come: the world once a sample differs from `v`, or none
when the samples run out first (the wait never ends). -/
def waitWhileOn (p : Int) (v : Level) : List Level → World → Option World
  | [], _ => none
  | x :: rest, w =>
    let w1 : World := { w with inputs := rest, trace := w.trace ++ [Event.digitalRead p x] }
    if x = v then waitWhileOn p v rest w1 else some w1

/-- The loop `while (digitalRead(pin) == v) { }`. -/
def waitWhile (p : Int) (v : Level) (w : World) : Option World :=
  waitWhileOn p v w.inputs w

end World

/-! ## The header -/

/-- Operating mode of the ADC (`RSC_MODE`). -/
inductive RSC_MODE where
  | NORMAL_MODE
  | NA_MODE
  | FAST_MODE
  deriving DecidableEq, Repr

/-- Unit of the calibrated pressure (`RSC_PRESSURE_UNIT`). -/
inductive RSC_PRESSURE_UNIT where
  | PASCAL
  | KPASCAL
  | MPASCAL
  | PSI
  | INH2O
  | BAR
  | mBAR
  deriving DecidableEq, Repr

/-- Reference of the pressure measurement (`RSC_PRESSURE_TYPE`). -/
inductive RSC_PRESSURE_TYPE where
  | DIFFERENTIAL
  | ABSOLUTE
  | GAUGE
  deriving DecidableEq, Repr

/-- The constants of `Honeywell_RSC.h`.  The header is not part of the
sources, so every constant the driver code names is a field; a data rate
(`RSC_DATA_RATE`) is the integer value of its enumerator. -/
structure Header where
  RSC_READ_EEPROM_INSTRUCTION : Nat
  RSC_EEPROM_ADDRESS_9TH_BIT_MASK : Nat
  RSC_CATALOG_LISTING_MSB : Nat
  RSC_SENSOR_NAME_LEN : Nat
  RSC_SERIAL_NO_YYYY_MSB : Nat
  RSC_SENSOR_NUMBER_LEN : Nat
  RSC_PRESSURE_RANGE_LSB : Nat
  RSC_PRESSURE_RANGE_LEN : Nat
  RSC_PRESSURE_MINIMUM_LSB : Nat
  RSC_PRESSURE_MINIMUM_LEN : Nat
  RSC_PRESSURE_UNIT_MSB : Nat
  RSC_PRESSURE_UNIT_LEN : Nat
  RSC_PRESSURE_REFERENCE : Nat
  RSC_SENSOR_TYPE_LEN : Nat
  RSC_OFFSET_COEFFICIENT_0_LSB : Nat
  RSC_COEFF_T_ROW_NO : Nat
  RSC_COEFF_T_COL_NO : Nat
  RSC_ADC_CONFIG_00 : Nat
  RSC_ADC_CONFIG_01 : Nat
  RSC_ADC_CONFIG_02 : Nat
  RSC_ADC_CONFIG_03 : Nat
  RSC_ADC_WREG : Nat
  RSC_ADC_REG_MASK : Nat
  RSC_ADC_NUM_BYTES_MASK : Nat
  RSC_ADC_RESET_COMMAND : Nat
  RSC_DATA_RATE_SHIFT : Nat
  RSC_DATA_RATE_MASK : Nat
  RSC_OPERATING_MODE_SHIFT : Nat
  RSC_OPERATING_MODE_MASK : Nat
  RSC_SET_BITS_MASK : Nat
  TEMPERATURE : Nat
  PRESSURE : Nat
  td_CSSC : Nat
  td_SCCS : Nat
  MSEC_PER_SEC : Nat
  NORMAL_MODE : Nat
  NA_MODE : Nat
  FAST_MODE : Nat
  N_DR_20_SPS : Nat
  N_DR_45_SPS : Nat
  N_DR_90_SPS : Nat
  N_DR_175_SPS : Nat
  N_DR_330_SPS : Nat
  N_DR_600_SPS : Nat
  N_DR_1000_SPS : Nat
  F_DR_40_SPS : Nat
  F_DR_90_SPS : Nat
  F_DR_180_SPS : Nat
  F_DR_350_SPS : Nat
  F_DR_660_SPS : Nat
  F_DR_1200_SPS : Nat
  F_DR_2000_SPS : Nat

namespace Header

/-- Integer value of a mode enumerator. -/
def modeCode (h : Header) : RSC_MODE → Nat
  | .NORMAL_MODE => h.NORMAL_MODE
  | .NA_MODE => h.NA_MODE
  | .FAST_MODE => h.FAST_MODE

/-- The seven data rates of the normal family, in the order of the case
labels. -/
def normalRates (h : Header) : List Nat :=
  [h.N_DR_20_SPS, h.N_DR_45_SPS, h.N_DR_90_SPS, h.N_DR_175_SPS, h.N_DR_330_SPS,
   h.N_DR_600_SPS, h.N_DR_1000_SPS]

/-- The seven data rates of the fast family, in the order of the case
labels. -/
def fastRates (h : Header) : List Nat :=
  [h.F_DR_40_SPS, h.F_DR_90_SPS, h.F_DR_180_SPS, h.F_DR_350_SPS, h.F_DR_660_SPS,
   h.F_DR_1200_SPS, h.F_DR_2000_SPS]

end Header

/-! ## The driver object -/

/-- The data members of a `Honeywell_RSC` object. -/
structure Honeywell_RSC where
  _drdy_pin : Int
  _cs_ee_pin : Int
  _cs_adc_pin : Int
  _catalog_listing : List Byte
  _serial_number : List Byte
  _pressure_range : F32
  _pressure_minimum : F32
  _pressure_unit : RSC_PRESSURE_UNIT
  _pressure_unit_name : String
  _pressure_type : RSC_PRESSURE_TYPE
  _pressure_type_name : String
  _coeff_matrix : Nat → Nat → F32
  adc_init_values : Nat → Byte
  _data_rate : Nat
  _mode : RSC_MODE
  _t_raw : Int
  temp : F32
  p_raw : Int
  p_int1_c : F32

/-- A driver object together with the hardware it runs on. -/
structure Machine where
  dev : Honeywell_RSC
  hw : World

/-- How a member function that may not come back ends. -/
inductive Outcome (α : Type) where
  /-- The function returned `value`. -/
  | returned (value : α) (m : Machine)
  /-- A busy-wait on the data-ready pin never saw the level it waits for. -/
  | stalled
  /-- The endless `ADC READ ERR` report loop was entered for register `reg`. -/
  | halted (reg : Nat) (m : Machine)

namespace World

/-- The loop `for (i = 0; i < n; i++) data[i] = SPI.transfer(0x00);`: the
bytes received, in order, and the world after the last transfer. -/
def receive : Nat → World → List Byte × World
  | 0, w => ([], w)
  | n + 1, w =>
    let r := w.transfer 0
    let rs := receive n r.2
    (r.1 :: rs.1, rs.2)

end World

namespace Honeywell_RSC

/-! ## Construction and chip selects -/

/-- The constructor `Honeywell_RSC(drdy_pin, cs_ee_pin, cs_adc_pin)`, run on
an object whose other members still hold whatever `m.dev` holds. -/
def construct (drdy_pin cs_ee_pin cs_adc_pin : Int) (m : Machine) : Machine :=
  let dev : Honeywell_RSC :=
    { m.dev with _drdy_pin := drdy_pin, _cs_ee_pin := cs_ee_pin, _cs_adc_pin := cs_adc_pin }
  let w := m.hw.pinMode dev._drdy_pin PinMode.INPUT
  let w := w.pinMode dev._cs_ee_pin PinMode.OUTPUT
  let w := w.pinMode dev._cs_adc_pin PinMode.OUTPUT
  let w := w.digitalWrite dev._cs_ee_pin Level.HIGH
  let w := w.digitalWrite dev._cs_adc_pin Level.HIGH
  { dev := dev, hw := w }

/-- The member function `select_eeprom`. -/
def select_eeprom (m : Machine) : Machine :=
  let w := m.hw.digitalWrite m.dev._cs_adc_pin Level.HIGH
  let w := w.digitalWrite m.dev._cs_ee_pin Level.LOW
  let w := w.beginTransaction ⟨125000, BitOrder.MSBFIRST, SPIMode.SPI_MODE0⟩
  { m with hw := w }

/-- The member function `deselect_eeprom`. -/
def deselect_eeprom (m : Machine) : Machine :=
  let w := m.hw.endTransaction
  let w := w.digitalWrite m.dev._cs_ee_pin Level.HIGH
  { m with hw := w }

/-- The member function `select_adc`. -/
def select_adc (m : Machine) : Machine :=
  let w := m.hw.digitalWrite m.dev._cs_ee_pin Level.HIGH
  let w := w.digitalWrite m.dev._cs_adc_pin Level.LOW
  let w := w.beginTransaction ⟨125000, BitOrder.MSBFIRST, SPIMode.SPI_MODE1⟩
  { m with hw := w }

/-- The member function `deselect_adc`. -/
def deselect_adc (m : Machine) : Machine :=
  let w := m.hw.endTransaction
  let w := w.digitalWrite m.dev._cs_adc_pin Level.HIGH
  { m with hw := w }

/-! ## EEPROM -/

/-- The member function `eeprom_read(address, num_bytes, data)`: the bytes
stored into `data[0 .. num_bytes-1]` and the machine afterwards.  The
arguments are converted to `uint16_t` and `uint8_t` on entry. -/
def eeprom_read (h : Header) (address num_bytes : Nat) (m : Machine) : List Byte × Machine :=
  let address := address % 2 ^ 16
  let num_bytes := num_bytes % 2 ^ 8
  let command0 := u8 (h.RSC_READ_EEPROM_INSTRUCTION
    ||| ((address &&& h.RSC_EEPROM_ADDRESS_9TH_BIT_MASK) >>> 5))
  let command1 := u8 (address &&& 0xFF)
  let m := select_eeprom m
  let w := (m.hw.transfer command0).2
  let w := (w.transfer command1).2
  let r := w.receive num_bytes
  (r.1, deselect_eeprom { m with hw := r.2 })

/-- The member function `get_catalog_listing`. -/
def get_catalog_listing (h : Header) (m : Machine) : Machine :=
  let r := eeprom_read h h.RSC_CATALOG_LISTING_MSB h.RSC_SENSOR_NAME_LEN m
  { r.2 with dev := { r.2.dev with _catalog_listing := r.1 } }

/-- The member function `get_serial_number`. -/
def get_serial_number (h : Header) (m : Machine) : Machine :=
  let r := eeprom_read h h.RSC_SERIAL_NO_YYYY_MSB h.RSC_SENSOR_NUMBER_LEN m
  { r.2 with dev := { r.2.dev with _serial_number := r.1 } }

/-- The member function `get_pressure_range`. -/
def get_pressure_range (h : Header) (m : Machine) : Machine :=
  let r := eeprom_read h h.RSC_PRESSURE_RANGE_LSB h.RSC_PRESSURE_RANGE_LEN m
  { r.2 with dev := { r.2.dev with _pressure_range := F32.ofBytes r.1 } }

/-- The member function `get_pressure_minimum`. -/
def get_pressure_minimum (h : Header) (m : Machine) : Machine :=
  let r := eeprom_read h h.RSC_PRESSURE_MINIMUM_LSB h.RSC_PRESSURE_MINIMUM_LEN m
  { r.2 with dev := { r.2.dev with _pressure_minimum := F32.ofBytes r.1 } }

/-- The member function `get_pressure_unit`.  The buffer is the label read,
padded with the zeros of its initialiser, with its last byte overwritten by
the terminator. -/
def get_pressure_unit (h : Header) (m : Machine) : Machine :=
  let n := h.RSC_PRESSURE_UNIT_LEN
  let r := eeprom_read h h.RSC_PRESSURE_UNIT_MSB n m
  let buf := (r.1 ++ List.replicate (n - r.1.length) (0 : Byte)).set (n - 1) 0
  let at_ (i : Nat) : Byte := buf.getD i 0
  let dev := r.2.dev
  let dev : Honeywell_RSC :=
    if at_ (n - 2) = ch '2' then
      { dev with _pressure_unit := RSC_PRESSURE_UNIT.INH2O, _pressure_unit_name := "inH2O" }
    else if at_ (n - 2) = ch 'a' then
      if at_ (n - 4) = ch 'K' then
        { dev with _pressure_unit := RSC_PRESSURE_UNIT.KPASCAL, _pressure_unit_name := "kilopascal" }
      else if at_ (n - 4) = ch 'M' then
        { dev with _pressure_unit := RSC_PRESSURE_UNIT.MPASCAL, _pressure_unit_name := "megapascal" }
      else
        { dev with _pressure_unit := RSC_PRESSURE_UNIT.PASCAL, _pressure_unit_name := "pascal" }
    else if at_ (n - 2) = ch 'r' then
      if at_ (n - 5) = ch 'm' then
        { dev with _pressure_unit := RSC_PRESSURE_UNIT.mBAR, _pressure_unit_name := "millibar" }
      else
        { dev with _pressure_unit := RSC_PRESSURE_UNIT.BAR, _pressure_unit_name := "bar" }
    else if at_ (n - 2) = ch 'i' then
      { dev with _pressure_unit := RSC_PRESSURE_UNIT.PSI, _pressure_unit_name := "psi" }
    else dev
  { r.2 with dev := dev }

/-- The member function `get_pressure_type`. -/
def get_pressure_type (h : Header) (m : Machine) : Machine :=
  let r := eeprom_read h h.RSC_PRESSURE_REFERENCE h.RSC_SENSOR_TYPE_LEN m
  let tag : Byte := r.1.getD 0 0
  let dev := r.2.dev
  let dev : Honeywell_RSC :=
    if tag = ch 'D' then
      { dev with _pressure_type := RSC_PRESSURE_TYPE.DIFFERENTIAL, _pressure_type_name := "differential" }
    else if tag = ch 'A' then
      { dev with _pressure_type := RSC_PRESSURE_TYPE.ABSOLUTE, _pressure_type_name := "absolute" }
    else if tag = ch 'G' then
      { dev with _pressure_type := RSC_PRESSURE_TYPE.GAUGE, _pressure_type_name := "gauge" }
    else
      { dev with _pressure_type := RSC_PRESSURE_TYPE.DIFFERENTIAL, _pressure_type_name := "differential" }
  { r.2 with dev := dev }

/-- One pass of the inner loop body of `get_coefficients`: read four bytes at
`RSC_OFFSET_COEFFICIENT_0_LSB + i * 80 + j * 4` and copy them into
`_coeff_matrix[i][j]`. -/
def get_coefficient (h : Header) (i j : Nat) (m : Machine) : Machine :=
  let base_address := h.RSC_OFFSET_COEFFICIENT_0_LSB + i * 80 + j * 4
  let r := eeprom_read h base_address 4 m
  let c := F32.ofBytes r.1
  { r.2 with dev := { r.2.dev with
      _coeff_matrix := fun a b => if a = i ∧ b = j then c else r.2.dev._coeff_matrix a b } }

/-- The member function `get_coefficients`. -/
def get_coefficients (h : Header) (m : Machine) : Machine :=
  (List.range h.RSC_COEFF_T_ROW_NO).foldl
    (fun m i => (List.range h.RSC_COEFF_T_COL_NO).foldl (fun m j => get_coefficient h i j m) m) m

/-- One `eeprom_read(address, 1, &adc_init_values[k]); delay(2);` of
`get_initial_adc_values`. -/
def get_initial_adc_value (h : Header) (address k : Nat) (m : Machine) : Machine :=
  let r := eeprom_read h address 1 m
  let b : Byte := r.1.getD 0 0
  { dev := { r.2.dev with adc_init_values := fun a => if a = k then b else r.2.dev.adc_init_values a },
    hw := r.2.hw.delay 2 }

/-- The member function `get_initial_adc_values(adc_init_values)`, called on
the member array of the same name. -/
def get_initial_adc_values (h : Header) (m : Machine) : Machine :=
  let m := get_initial_adc_value h h.RSC_ADC_CONFIG_00 0 m
  let m := get_initial_adc_value h h.RSC_ADC_CONFIG_01 1 m
  let m := get_initial_adc_value h h.RSC_ADC_CONFIG_02 2 m
  get_initial_adc_value h h.RSC_ADC_CONFIG_03 3 m

/-! ## ADC conversions -/

/-- The configuration command of `get_temperature` and `select_pressure`:
the `WREG` byte for register 1 and the byte made of data rate, mode and the
channel bit. -/
def conversion_command (h : Header) (dev : Honeywell_RSC) (channel : Nat) : Byte × Byte :=
  (u8 (h.RSC_ADC_WREG ||| ((1 <<< 2) &&& h.RSC_ADC_REG_MASK)),
   u8 ((((dev._data_rate <<< h.RSC_DATA_RATE_SHIFT) &&& h.RSC_DATA_RATE_MASK)
        ||| ((h.modeCode dev._mode <<< h.RSC_OPERATING_MODE_SHIFT) &&& h.RSC_OPERATING_MODE_MASK))
        ||| (((channel &&& 0x01) <<< 1) ||| h.RSC_SET_BITS_MASK)))

/-- The part `select_adc(); ... deselect_adc();` that `get_temperature` and
`select_pressure` share: wait for a fresh data-ready edge, then send the
command followed by `0x08`. -/
def start_conversion (h : Header) (channel : Nat) (m : Machine) : Option Machine :=
  let command := conversion_command h m.dev channel
  let m := select_adc m
  match m.hw.waitWhile m.dev._drdy_pin Level.LOW with
  | none => none
  | some w =>
    match w.waitWhile m.dev._drdy_pin Level.HIGH with
    | none => none
    | some w =>
      let w := w.delayMicroseconds (h.td_CSSC / 1000)
      let w := (w.transfer command.1).2
      let w := (w.transfer command.2).2
      let w := (w.transfer 0x08).2
      let w := w.delayMicroseconds (h.td_SCCS / 1000)
      some (deselect_adc { m with hw := w })

/-- The part that `get_temperature` and `read_pressure` share: wait until
data-ready is low, select the ADC and clock out the three bytes of the
conversion result. -/
def read_conversion (h : Header) (m : Machine) : Option (List Byte × Machine) :=
  match m.hw.waitWhile m.dev._drdy_pin Level.HIGH with
  | none => none
  | some w =>
    let m := select_adc { m with hw := w }
    let w := m.hw.delayMicroseconds (h.td_CSSC / 1000)
    let r := w.receive 3
    let w := r.2.delayMicroseconds (h.td_SCCS / 1000)
    some (r.1, deselect_adc { m with hw := w })

/-- The member function `get_temperature`: it stores the raw count in
`_t_raw` and returns the temperature in degrees Celsius. -/
def get_temperature (h : Header) (m : Machine) : Outcome F32 :=
  match start_conversion h h.TEMPERATURE m with
  | none => Outcome.stalled
  | some m =>
    match read_conversion h m with
    | none => Outcome.stalled
    | some (temp_arr, m) =>
      let b0 : Nat := (temp_arr.getD 0 0).val
      let b1 : Nat := (temp_arr.getD 1 0).val
      let _t_raw : Int := (((b0 <<< 8) ||| b1) >>> 2 : Nat)
      let temp : F32 := F32.ofInt _t_raw * F32.fin (3125 / 100000)
      Outcome.returned temp { m with dev := { m.dev with _t_raw := _t_raw, temp := temp } }

/-- The member function `select_pressure`. -/
def select_pressure (h : Header) (m : Machine) : Outcome Unit :=
  match start_conversion h h.PRESSURE m with
  | none => Outcome.stalled
  | some m => Outcome.returned () m

/-- The raw pressure count of `read_pressure`: the three bytes in the top 24
bits of an `int32_t`, divided by 256 (C++ division, rounding toward zero). -/
def pressure_count (b0 b1 b2 : Byte) : Int :=
  Int.tdiv (toInt32 (((b0.val <<< 24) ||| (b1.val <<< 16)) ||| (b2.val <<< 8))) 256

/-- The compensation arithmetic of `read_pressure`, in the order of the
source: the value stored in `p_int1_c` and the value returned. -/
def compensate (c : Nat → Nat → F32) (range minimum : F32) (t_raw p_raw : Int) : F32 × F32 :=
  let t := F32.ofInt t_raw
  let x := c 0 3 * t * t * t
  let y := c 0 2 * t * t
  let z := c 0 1 * t
  let p_int1_c := x + y + z + c 0 0
  let p_int1 := F32.ofInt p_raw - (x + y + z + c 0 0)
  let x := c 1 3 * t * t * t
  let y := c 1 2 * t * t
  let z := c 1 1 * t
  let p_int2 := p_int1 / (x + y + z + c 1 0)
  let x := c 2 3 * p_int2 * p_int2 * p_int2
  let y := c 2 2 * p_int2 * p_int2
  let z := c 2 1 * p_int2
  let p_comp_fs := x + y + z + c 2 0
  let p_comp := (p_comp_fs * range) + minimum
  (p_int1_c, p_comp)

/-- The member function `read_pressure`. -/
def read_pressure (h : Header) (m : Machine) : Outcome F32 :=
  match read_conversion h m with
  | none => Outcome.stalled
  | some (pres_arr, m) =>
    let p_raw := pressure_count (pres_arr.getD 0 0) (pres_arr.getD 1 0) (pres_arr.getD 2 0)
    let r := compensate m.dev._coeff_matrix m.dev._pressure_range m.dev._pressure_minimum
      m.dev._t_raw p_raw
    Outcome.returned r.2 { m with dev := { m.dev with p_raw := p_raw, p_int1_c := r.1 } }

/-- The loop `for (i = 0; i < n; i++) SPI.transfer(command[i]);`. -/
def send : List Byte → World → World
  | [], w => w
  | b :: rest, w => send rest (w.transfer b).2

/-- The member function `adc_write(reg, num_bytes, data)`; the arguments are
converted to `uint8_t` on entry. -/
def adc_write (h : Header) (reg num_bytes : Nat) (data : Nat → Byte) (m : Machine) : Machine :=
  let reg := reg % 2 ^ 8
  let num_bytes := num_bytes % 2 ^ 8
  if num_bytes ≤ 0 ∨ num_bytes > 4 then m
  else if reg > 3 then m
  else
    let command0 := u8 ((h.RSC_ADC_WREG ||| ((reg <<< 2) &&& h.RSC_ADC_REG_MASK))
      ||| ((num_bytes - 1) &&& h.RSC_ADC_NUM_BYTES_MASK))
    let command := command0 :: (List.range num_bytes).map data
    let m := select_adc m
    deselect_adc { m with hw := send command m.hw }

/-! ## Data rate and mode -/

/-- The two `Serial.println` calls of a rejected mode. -/
def warn (text : String) (m : Machine) : Machine :=
  { m with hw := (m.hw.serial text).serial "RSC: You will see erronous readings\n" }

/-- The member function `set_mode`. -/
def set_mode (h : Header) (mode : RSC_MODE) (m : Machine) : Machine :=
  match mode with
  | RSC_MODE.NORMAL_MODE =>
    if m.dev._data_rate < h.N_DR_20_SPS ∨ m.dev._data_rate > h.N_DR_1000_SPS then
      let m := warn "RSC: Normal mode not supported with the current selection of data rate\n" m
      { m with dev := { m.dev with _mode := RSC_MODE.NA_MODE } }
    else
      { m with dev := { m.dev with _mode := RSC_MODE.NORMAL_MODE } }
  | RSC_MODE.FAST_MODE =>
    if m.dev._data_rate < h.F_DR_40_SPS ∨ m.dev._data_rate > h.F_DR_2000_SPS then
      let m := warn "RSC: Fast mode not supported with the current selection of data rate\n" m
      { m with dev := { m.dev with _mode := RSC_MODE.NA_MODE } }
    else
      { m with dev := { m.dev with _mode := RSC_MODE.FAST_MODE } }
  | RSC_MODE.NA_MODE =>
    { m with dev := { m.dev with _mode := RSC_MODE.NA_MODE } }

/-- The member function `set_data_rate`; the `switch` takes the first group
of case labels that holds `dr`, else the default. -/
def set_data_rate (h : Header) (dr : Nat) (m : Machine) : Machine :=
  let m : Machine := { m with dev := { m.dev with _data_rate := dr } }
  if dr ∈ h.normalRates then set_mode h RSC_MODE.NORMAL_MODE m
  else if dr ∈ h.fastRates then set_mode h RSC_MODE.FAST_MODE m
  else set_mode h RSC_MODE.NA_MODE m

/-! ## ADC power-up -/

/-- The `WREG` commands of `setup_adc`, one for each configuration register. -/
def regs : List Byte := [0x40, 0x44, 0x48, 0x4C]

/-- The `RREG` commands of `setup_adc`, one for each configuration register. -/
def commandread : List Byte := [0x20, 0x24, 0x28, 0x2C]

/-- The readback loop of `setup_adc` over the register indices still to do:
send the read command, take the echoed byte and compare it with the byte
written; a mismatch enters the endless report loop. -/
def readback (command : Nat → Byte) : List Nat → Machine → Outcome Unit
  | [], m => Outcome.returned () m
  | i :: rest, m =>
    let w := (m.hw.transfer (commandread.getD i 0)).2
    let r := w.transfer 0x00
    let m : Machine := { m with hw := r.2 }
    if command i ≠ r.1 then Outcome.halted i m
    else readback command rest m

/-- The member function `setup_adc(adc_init_values)`. -/
def setup_adc (h : Header) (adc_init_values : Nat → Byte) (m : Machine) : Outcome Unit :=
  let command : Nat → Byte := adc_init_values
  let m := select_adc m
  let w := m.hw.delayMicroseconds 50
  let w := (w.transfer (u8 h.RSC_ADC_RESET_COMMAND)).2
  let w := w.delayMicroseconds (50 + 32 * 204768 / 999)
  let w := (w.transfer (regs.getD 0 0)).2
  let w := (w.transfer (command 0)).2
  let w := (w.transfer (regs.getD 1 0)).2
  let w := (w.transfer (command 1)).2
  let w := (w.transfer (regs.getD 2 0)).2
  let w := (w.transfer (command 2)).2
  let w := (w.transfer (regs.getD 3 0)).2
  let w := (w.transfer (command 3)).2
  match readback command (List.range 4) { m with hw := w } with
  | Outcome.returned _ m => Outcome.returned () { m with hw := m.hw.delay 5 }
  | Outcome.halted i m => Outcome.halted i m
  | Outcome.stalled => Outcome.stalled

/-! ## Initialisation -/

/-- The member function `init`. -/
def init (h : Header) (m : Machine) : Outcome Unit :=
  let m := get_catalog_listing h m
  let m := get_serial_number h m
  let m := get_pressure_range h m
  let m := get_pressure_minimum h m
  let m := get_pressure_unit h m
  let m := get_pressure_type h m
  let m := get_initial_adc_values h m
  match setup_adc h m.dev.adc_init_values m with
  | Outcome.halted i m => Outcome.halted i m
  | Outcome.stalled => Outcome.stalled
  | Outcome.returned _ m =>
    let m := get_coefficients h m
    let m := set_data_rate h h.N_DR_20_SPS m
    let m := set_mode h RSC_MODE.NORMAL_MODE m
    Outcome.returned () { m with hw := m.hw.delay 5 }

end Honeywell_RSC

/-! ## A concrete configuration -/

/-- A concrete header: the EEPROM map and command codes of the sensor's data
sheet with the enumerators numbered in the order of the case labels.  It is
used only where a statement is evaluated on a concrete input. -/
def datasheet : Header :=
  { RSC_READ_EEPROM_INSTRUCTION := 0x03
    RSC_EEPROM_ADDRESS_9TH_BIT_MASK := 0x100
    RSC_CATALOG_LISTING_MSB := 0
    RSC_SENSOR_NAME_LEN := 16
    RSC_SERIAL_NO_YYYY_MSB := 16
    RSC_SENSOR_NUMBER_LEN := 12
    RSC_PRESSURE_RANGE_LSB := 27
    RSC_PRESSURE_RANGE_LEN := 4
    RSC_PRESSURE_MINIMUM_LSB := 31
    RSC_PRESSURE_MINIMUM_LEN := 4
    RSC_PRESSURE_UNIT_MSB := 35
    RSC_PRESSURE_UNIT_LEN := 5
    RSC_PRESSURE_REFERENCE := 40
    RSC_SENSOR_TYPE_LEN := 1
    RSC_OFFSET_COEFFICIENT_0_LSB := 130
    RSC_COEFF_T_ROW_NO := 3
    RSC_COEFF_T_COL_NO := 4
    RSC_ADC_CONFIG_00 := 61
    RSC_ADC_CONFIG_01 := 63
    RSC_ADC_CONFIG_02 := 65
    RSC_ADC_CONFIG_03 := 67
    RSC_ADC_WREG := 0x40
    RSC_ADC_REG_MASK := 0x0C
    RSC_ADC_NUM_BYTES_MASK := 0x03
    RSC_ADC_RESET_COMMAND := 0x06
    RSC_DATA_RATE_SHIFT := 5
    RSC_DATA_RATE_MASK := 0xE0
    RSC_OPERATING_MODE_SHIFT := 3
    RSC_OPERATING_MODE_MASK := 0x18
    RSC_SET_BITS_MASK := 0x04
    TEMPERATURE := 1
    PRESSURE := 0
    td_CSSC := 50000
    td_SCCS := 25000
    MSEC_PER_SEC := 1000
    NORMAL_MODE := 0
    NA_MODE := 1
    FAST_MODE := 2
    N_DR_20_SPS := 0
    N_DR_45_SPS := 1
    N_DR_90_SPS := 2
    N_DR_175_SPS := 3
    N_DR_330_SPS := 4
    N_DR_600_SPS := 5
    N_DR_1000_SPS := 6
    F_DR_40_SPS := 8
    F_DR_90_SPS := 9
    F_DR_180_SPS := 10
    F_DR_350_SPS := 11
    F_DR_660_SPS := 12
    F_DR_1200_SPS := 13
    F_DR_2000_SPS := 14 }

/-- An object before its constructor has run, its members zeroed. -/
def blank : Honeywell_RSC :=
  { _drdy_pin := 0, _cs_ee_pin := 0, _cs_adc_pin := 0
    _catalog_listing := [], _serial_number := []
    _pressure_range := F32.fin 0, _pressure_minimum := F32.fin 0
    _pressure_unit := RSC_PRESSURE_UNIT.PASCAL, _pressure_unit_name := ""
    _pressure_type := RSC_PRESSURE_TYPE.DIFFERENTIAL, _pressure_type_name := ""
    _coeff_matrix := fun _ _ => F32.fin 0
    adc_init_values := fun _ => 0
    _data_rate := 0, _mode := RSC_MODE.NORMAL_MODE
    _t_raw := 0, temp := F32.fin 0, p_raw := 0, p_int1_c := F32.fin 0 }

/-- A board after reset on which the bus answers the k-th transfer with
`miso k` and the data-ready pin will show the levels `inputs`. -/
def board (miso : Nat → Byte) (inputs : List Level) : World :=
  { pin := fun _ => Level.LOW, spi := none, miso := miso, clocked := 0,
    inputs := inputs, trace := [] }

/-- The sensor object of `main.cpp`: `rsc1(15, 9, 10)`. -/
def rsc1 (miso : Nat → Byte) (inputs : List Level) : Machine :=
  Honeywell_RSC.construct 15 9 10 { dev := blank, hw := board miso inputs }

/-! ## Vocabulary of the statements -/

/-- A call of one of the four chip-select member functions. -/
inductive BusOp where
  | select_eeprom
  | deselect_eeprom
  | select_adc
  | deselect_adc
  deriving DecidableEq, Repr

/-- A runtime call that a chip-select function makes. -/
inductive Call where
  | digitalWrite (pin : Int) (v : Level)
  | beginTransaction (s : SPISettings)
  | endTransaction
  deriving DecidableEq, Repr

/-- Effect of one runtime call on the world. -/
def Call.run : Call → World → World
  | Call.digitalWrite p v, w => w.digitalWrite p v
  | Call.beginTransaction s, w => w.beginTransaction s
  | Call.endTransaction, w => w.endTransaction

/-- The world after a sequence of runtime calls. -/
def World.after (w : World) (calls : List Call) : World :=
  calls.foldl (fun w c => c.run w) w

/-- The member function a `BusOp` names. -/
def BusOp.run : BusOp → Machine → Machine
  | BusOp.select_eeprom => Honeywell_RSC.select_eeprom
  | BusOp.deselect_eeprom => Honeywell_RSC.deselect_eeprom
  | BusOp.select_adc => Honeywell_RSC.select_adc
  | BusOp.deselect_adc => Honeywell_RSC.deselect_adc

/-- The runtime calls of each chip-select function, in source order. -/
def BusOp.calls (dev : Honeywell_RSC) : BusOp → List Call
  | BusOp.select_eeprom =>
    [Call.digitalWrite dev._cs_adc_pin Level.HIGH, Call.digitalWrite dev._cs_ee_pin Level.LOW,
     Call.beginTransaction ⟨125000, BitOrder.MSBFIRST, SPIMode.SPI_MODE0⟩]
  | BusOp.deselect_eeprom => [Call.endTransaction, Call.digitalWrite dev._cs_ee_pin Level.HIGH]
  | BusOp.select_adc =>
    [Call.digitalWrite dev._cs_ee_pin Level.HIGH, Call.digitalWrite dev._cs_adc_pin Level.LOW,
     Call.beginTransaction ⟨125000, BitOrder.MSBFIRST, SPIMode.SPI_MODE1⟩]
  | BusOp.deselect_adc => [Call.endTransaction, Call.digitalWrite dev._cs_adc_pin Level.HIGH]

/-- Both chip selects are active (LOW) at once. -/
def BothSelected (dev : Honeywell_RSC) (w : World) : Prop :=
  w.pin dev._cs_ee_pin = Level.LOW ∧ w.pin dev._cs_adc_pin = Level.LOW

/-- The machine a call left behind when it returned. -/
def Outcome.machine? {α : Type} : Outcome α → Option Machine
  | Outcome.returned _ m => some m
  | _ => none

/-- The value a call returned. -/
def Outcome.value? {α : Type} : Outcome α → Option α
  | Outcome.returned a _ => some a
  | _ => none

/-- The bus answers of a run in which the ADC shifts out `b0 b1 b2` as the
conversion result of `get_temperature` (transfers 3, 4 and 5; the three
command bytes before them are answered with zero). -/
def temperature_reply (b0 b1 b2 : Byte) (k : Nat) : Byte :=
  if k = 3 then b0 else if k = 4 then b1 else if k = 5 then b2 else 0

/-- The four seed bytes `01 02 03 04` of the power-up scenario. -/
def seeds_1234 (i : Nat) : Byte :=
  if i = 0 then 0x01 else if i = 1 then 0x02 else if i = 2 then 0x03 else 0x04

/-- The bus answers of a `setup_adc` run started on a fresh bus in which the
ADC echoes `e0 e1 e2 e3` on the readback of registers 0 to 3 (transfers 10,
12, 14 and 16) and answers every other transfer with zero. -/
def echo_reply (e0 e1 e2 e3 : Byte) (k : Nat) : Byte :=
  if k = 10 then e0 else if k = 12 then e1 else if k = 14 then e2 else if k = 16 then e3 else 0

/-- The compensation formula in the words of the specification, in exact
arithmetic: offset polynomial, span normalisation, shape polynomial, then
scaling by range `R` and shifting by minimum `M`, for the raw temperature
count `T` and the raw pressure count `P`. -/
def compensation_formula (c : Nat → Nat → ℚ) (R M T P : ℚ) : ℚ :=
  let q := (P - (c 0 0 + c 0 1 * T + c 0 2 * T ^ 2 + c 0 3 * T ^ 3))
    / (c 1 0 + c 1 1 * T + c 1 2 * T ^ 2 + c 1 3 * T ^ 3)
  (c 2 0 + c 2 1 * q + c 2 2 * q ^ 2 + c 2 3 * q ^ 3) * R + M

/-- A machine whose calibration data and last raw temperature count are the
given ones. -/
def calibrated (cm : Nat → Nat → F32) (range minimum : F32) (t_raw : Int) (m : Machine) :
    Machine :=
  { m with dev := { m.dev with _coeff_matrix := cm, _pressure_range := range,
                               _pressure_minimum := minimum, _t_raw := t_raw } }

/-- The coefficient matrix that is zero except for `coeff[2][0] = 1.0`. -/
def shape_only (i j : Nat) : F32 := if i = 2 ∧ j = 0 then F32.fin 1 else F32.fin 0

/-- The coefficient matrix that is zero except for `coeff[1][0] = 1.0` and
`coeff[2][0] = 1.0`. -/
def shape_unit_span (i j : Nat) : F32 :=
  if (i = 1 ∨ i = 2) ∧ j = 0 then F32.fin 1 else F32.fin 0

/-- A coefficient matrix with unit span and a linear shape:
`coeff[1][0] = 1` and `coeff[2][1] = 1`, every other entry zero. -/
def linear_coefficients (i j : Nat) : ℚ :=
  if (i = 1 ∧ j = 0) ∨ (i = 2 ∧ j = 1) then 1 else 0

/-- The bus answers of a `read_pressure` run started on a fresh bus in which
the ADC shifts out `b0 b1 b2`. -/
def pressure_reply (b0 b1 b2 : Byte) (k : Nat) : Byte :=
  if k = 0 then b0 else if k = 1 then b1 else if k = 2 then b2 else 0

/-- The enumerator order the statements about data rates assume of the
header: each family is a contiguous ascending range in the order of its case
labels, and the two ranges do not meet (case labels are distinct). -/
def Header.RatesInOrder (h : Header) : Prop :=
  h.N_DR_45_SPS = h.N_DR_20_SPS + 1 ∧ h.N_DR_90_SPS = h.N_DR_20_SPS + 2 ∧
  h.N_DR_175_SPS = h.N_DR_20_SPS + 3 ∧ h.N_DR_330_SPS = h.N_DR_20_SPS + 4 ∧
  h.N_DR_600_SPS = h.N_DR_20_SPS + 5 ∧ h.N_DR_1000_SPS = h.N_DR_20_SPS + 6 ∧
  h.F_DR_90_SPS = h.F_DR_40_SPS + 1 ∧ h.F_DR_180_SPS = h.F_DR_40_SPS + 2 ∧
  h.F_DR_350_SPS = h.F_DR_40_SPS + 3 ∧ h.F_DR_660_SPS = h.F_DR_40_SPS + 4 ∧
  h.F_DR_1200_SPS = h.F_DR_40_SPS + 5 ∧ h.F_DR_2000_SPS = h.F_DR_40_SPS + 6 ∧
  (h.N_DR_1000_SPS < h.F_DR_40_SPS ∨ h.F_DR_2000_SPS < h.N_DR_20_SPS)

/-- A call of `set_data_rate` or of `set_mode`. -/
inductive ModeOp where
  | set_data_rate (dr : Nat)
  | set_mode (mode : RSC_MODE)
  deriving DecidableEq, Repr

/-- The member function a `ModeOp` names, applied to its argument. -/
def ModeOp.run (h : Header) : ModeOp → Machine → Machine
  | ModeOp.set_data_rate dr => Honeywell_RSC.set_data_rate h dr
  | ModeOp.set_mode mode => Honeywell_RSC.set_mode h mode

/-- The stored mode agrees with the family of the stored data rate: normal
mode only with a normal-family rate, fast mode only with a fast-family rate
(any other mode is `NA_MODE`). -/
def ModeConsistent (h : Header) (dev : Honeywell_RSC) : Prop :=
  (dev._mode = RSC_MODE.NORMAL_MODE → dev._data_rate ∈ h.normalRates) ∧
  (dev._mode = RSC_MODE.FAST_MODE → dev._data_rate ∈ h.fastRates)

/-- One `SPI.transfer` as seen on the bus: the byte sent, the byte received
and the levels of the two chip selects while it ran. -/
structure BusTransfer where
  tx : Byte
  rx : Byte
  cs_ee : Level
  cs_adc : Level
  deriving DecidableEq, Repr

/-- The transfers among the runtime calls `events`, in order, each with the
levels of the chip selects of `dev` at that moment; `pin` holds the pin
levels before the first call. -/
def busLog (dev : Honeywell_RSC) : (Int → Level) → List Event → List BusTransfer
  | _, [] => []
  | pin, Event.digitalWrite p v :: es => busLog dev (fun q => if q = p then v else pin q) es
  | pin, Event.transfer tx rx :: es =>
    ⟨tx, rx, pin dev._cs_ee_pin, pin dev._cs_adc_pin⟩ :: busLog dev pin es
  | pin, _ :: es => busLog dev pin es

/-- The bus answers of an `eeprom_read` run started on a fresh bus in which
the EEPROM streams back `bytes` after the two command bytes. -/
def eeprom_reply (bytes : List Byte) (k : Nat) : Byte :=
  if k < 2 then 0 else bytes.getD (k - 2) 0

/-- The two command bytes that `eeprom_read` frames for `address` (its first
two assignments). -/
def eeprom_command (h : Header) (address : Nat) : Byte × Byte :=
  (u8 (h.RSC_READ_EEPROM_INSTRUCTION
    ||| ((address % 2 ^ 16 &&& h.RSC_EEPROM_ADDRESS_9TH_BIT_MASK) >>> 5)),
   u8 (address % 2 ^ 16 &&& 0xFF))

/-- The runtime calls a call made: the trace after it without the trace
before it. -/
def eventsSince (before after : World) : List Event :=
  after.trace.drop before.trace.length

/-- The calibration data of the object: the coefficient matrix, the
pressure range and the pressure minimum. -/
def calibration (dev : Honeywell_RSC) : (Nat → Nat → F32) × F32 × F32 :=
  (dev._coeff_matrix, dev._pressure_range, dev._pressure_minimum)

/-! # Theorems -/

/-! ## Chip-select exclusivity -/

theorem BusOp.run_dev (op : BusOp) (x : Machine) : (op.run x).dev = x.dev := by
  cases op <;> rfl

theorem BusOp.run_hw (op : BusOp) (x : Machine) :
    (op.run x).hw = x.hw.after (op.calls x.dev) := by
  cases op <;> rfl

theorem World.after_append (w : World) (a b : List Call) :
    w.after (a ++ b) = (w.after a).after b := by
  simp [World.after, List.foldl_append]

theorem not_bothSelected_take_calls (dev : Honeywell_RSC) (hne : dev._cs_ee_pin ≠ dev._cs_adc_pin)
    (op : BusOp) (w : World) (hw : ¬ BothSelected dev w) (k : Nat) :
    ¬ BothSelected dev (w.after ((op.calls dev).take k)) := by
  have hne2 : dev._cs_adc_pin ≠ dev._cs_ee_pin := fun e => hne e.symm
  unfold BothSelected at *
  cases op <;> rcases k with _ | _ | _ | k <;>
    simp_all [BusOp.calls, World.after, Call.run, World.digitalWrite, World.beginTransaction,
      World.endTransaction]

theorem not_bothSelected_take (dev : Honeywell_RSC) (hne : dev._cs_ee_pin ≠ dev._cs_adc_pin)
    (ops : List BusOp) : ∀ (w : World), ¬ BothSelected dev w → ∀ k : Nat,
      ¬ BothSelected dev (w.after ((ops.flatMap (BusOp.calls dev)).take k)) := by
  induction ops with
  | nil => intro w hw k; simpa [World.after] using hw
  | cons op ops ih =>
    intro w hw k
    rw [List.flatMap_cons, List.take_append_eq_append_take, World.after_append]
    by_cases hk : k ≤ (op.calls dev).length
    · have h0 : k - (op.calls dev).length = 0 := by omega
      rw [h0]
      simpa [World.after] using not_bothSelected_take_calls dev hne op w hw k
    · have hfull : (op.calls dev).take k = op.calls dev := List.take_of_length_le (by omega)
      rw [hfull]
      apply ih
      have := not_bothSelected_take_calls dev hne op w hw (op.calls dev).length
      simpa using this

theorem foldl_run_eq (ops : List BusOp) : ∀ (x : Machine),
    (ops.foldl (fun x op => op.run x) x).dev = x.dev ∧
    (ops.foldl (fun x op => op.run x) x).hw = x.hw.after (ops.flatMap (BusOp.calls x.dev)) := by
  induction ops with
  | nil => intro x; simp [World.after]
  | cons op ops ih =>
    intro x
    have h := ih (op.run x)
    rw [BusOp.run_dev, BusOp.run_hw] at h
    rw [List.foldl_cons, List.flatMap_cons, World.after_append]
    exact h

/-- C5: when the two chip selects are wired to different pins, then from the
constructor's state (both selects HIGH) every sequence of `select_eeprom`,
`deselect_eeprom`, `select_adc` and `deselect_adc` calls is the sequence of its
runtime calls, and after every prefix of those runtime calls (so also between
the pin writes of one function) the two selects are not both LOW; right after
`select_eeprom` the ADC select is HIGH and right after `select_adc` the EEPROM
select is HIGH. -/
theorem chip_selects_never_both_active (drdy_pin cs_ee_pin cs_adc_pin : Int)
    (hne : cs_ee_pin ≠ cs_adc_pin) (m0 : Machine) (ops : List BusOp) :
    let m := Honeywell_RSC.construct drdy_pin cs_ee_pin cs_adc_pin m0
    let x := ops.foldl (fun x op => op.run x) m
    (m.hw.pin cs_ee_pin = Level.HIGH ∧ m.hw.pin cs_adc_pin = Level.HIGH) ∧
    x.hw = m.hw.after (ops.flatMap (BusOp.calls m.dev)) ∧
    (∀ k : Nat, ¬ BothSelected m.dev (m.hw.after ((ops.flatMap (BusOp.calls m.dev)).take k))) ∧
    (Honeywell_RSC.select_eeprom x).hw.pin cs_adc_pin = Level.HIGH ∧
    (Honeywell_RSC.select_adc x).hw.pin cs_ee_pin = Level.HIGH := by
  intro m x
  have hne2 : cs_adc_pin ≠ cs_ee_pin := fun e => hne e.symm
  have hee : m.hw.pin cs_ee_pin = Level.HIGH := by
    simp [m, Honeywell_RSC.construct, World.digitalWrite, World.pinMode, hne]
  have hadc : m.hw.pin cs_adc_pin = Level.HIGH := by
    simp [m, Honeywell_RSC.construct, World.digitalWrite, World.pinMode]
  have hdev : m.dev._cs_ee_pin = cs_ee_pin ∧ m.dev._cs_adc_pin = cs_adc_pin := ⟨rfl, rfl⟩
  have hx := foldl_run_eq ops m
  refine ⟨⟨hee, hadc⟩, hx.2, ?_, ?_, ?_⟩
  · apply not_bothSelected_take m.dev (by rw [hdev.1, hdev.2]; exact hne) ops m.hw
    intro hb
    have h1 := hb.1
    rw [hdev.1, hee] at h1
    exact absurd h1 (by decide)
  · have hd : x.dev = m.dev := hx.1
    simp [Honeywell_RSC.select_eeprom, World.digitalWrite, World.beginTransaction, hd, hdev.1,
      hdev.2, hne2]
  · have hd : x.dev = m.dev := hx.1
    simp [Honeywell_RSC.select_adc, World.digitalWrite, World.beginTransaction, hd, hdev.1,
      hdev.2, hne]

/-- C5 at the pins of `main.cpp` (EEPROM select 9, ADC select 10): after
`select_eeprom` and the first pin write of `select_adc` the selects are not
both LOW. -/
theorem chip_selects_never_both_active_witness :
    (9 : Int) ≠ 10 ∧
    ¬ BothSelected (rsc1 (fun _ => 0) []).dev
      ((rsc1 (fun _ => 0) []).hw.after
        (([BusOp.select_eeprom, BusOp.select_adc].flatMap
          (BusOp.calls (rsc1 (fun _ => 0) []).dev)).take 4)) :=
  ⟨by decide,
   (chip_selects_never_both_active 15 9 10 (by decide)
      { dev := blank, hw := board (fun _ => 0) [] }
      [BusOp.select_eeprom, BusOp.select_adc]).2.2.1 4⟩

/-! ## Bytes, waits and transfers -/

theorem or_byte_pair (a b : Nat) (hb : b < 256) : (a <<< 8) ||| b = a * 256 + b := by
  have e := @Nat.mul_add_lt_is_or 8 b (by omega) a
  rw [Nat.shiftLeft_eq, Nat.mul_comm a, ← e]

theorem or_byte_triple (b0 b1 b2 : Nat) (h1 : b1 < 256) (h2 : b2 < 256) :
    ((b0 <<< 24) ||| (b1 <<< 16)) ||| (b2 <<< 8) = 256 * (b0 * 65536 + b1 * 256 + b2) := by
  have e1 := @Nat.mul_add_lt_is_or 24 (b1 * 2 ^ 16) (by omega) b0
  have e2 := @Nat.mul_add_lt_is_or 16 (b2 * 2 ^ 8) (by omega) (2 ^ 8 * b0 + b1)
  have e3 : 2 ^ 16 * (2 ^ 8 * b0 + b1) = 2 ^ 24 * b0 + b1 * 2 ^ 16 := by omega
  simp only [Nat.shiftLeft_eq]
  rw [Nat.mul_comm b0, ← e1, ← e3, ← e2]
  omega

theorem pressure_count_eq (b0 b1 b2 : Byte) :
    Honeywell_RSC.pressure_count b0 b1 b2 =
      if b0.val < 128 then ((b0.val * 65536 + b1.val * 256 + b2.val : Nat) : Int)
      else ((b0.val * 65536 + b1.val * 256 + b2.val : Nat) : Int) - 2 ^ 24 := by
  have h0 := b0.isLt
  have h1 := b1.isLt
  have h2 := b2.isLt
  unfold Honeywell_RSC.pressure_count toInt32
  rw [or_byte_triple _ _ _ h1 h2]
  have hlt : 256 * (b0.val * 65536 + b1.val * 256 + b2.val) < 2 ^ 32 := by omega
  rw [Nat.mod_eq_of_lt hlt]
  by_cases hb : b0.val < 128
  · rw [if_pos (by omega), if_pos hb]
    push_cast
    rw [Int.mul_comm, Int.mul_tdiv_cancel _ (by decide)]
  · rw [if_neg (by omega), if_neg hb]
    have e : (((256 * (b0.val * 65536 + b1.val * 256 + b2.val) : Nat) : Int) - 2 ^ 32)
        = (((b0.val * 65536 + b1.val * 256 + b2.val : Nat) : Int) - 2 ^ 24) * 256 := by
      push_cast
      ring
    rw [e, Int.mul_tdiv_cancel _ (by decide)]


theorem World.waitWhileOn_of_mem (p : Int) (v x : Level) (hx : x ≠ v) :
    ∀ (xs : List Level) (w : World), x ∈ xs →
      ∃ w', World.waitWhileOn p v xs w = some w' ∧ w'.pin = w.pin ∧ w'.spi = w.spi ∧
        w'.miso = w.miso ∧ w'.clocked = w.clocked := by
  intro xs
  induction xs with
  | nil => intro w hmem; simp at hmem
  | cons y ys ih =>
    intro w hmem
    by_cases hy : y = v
    · have hys : x ∈ ys := by
        rcases List.mem_cons.mp hmem with h | h
        · exact absurd (h.trans hy) hx
        · exact h
      obtain ⟨w', h1, h2, h3, h4, h5⟩ :=
        ih { w with inputs := ys, trace := w.trace ++ [Event.digitalRead p y] } hys
      refine ⟨w', ?_, h2, h3, h4, h5⟩
      simp only [World.waitWhileOn, if_pos hy]
      exact h1
    · refine ⟨{ w with inputs := ys, trace := w.trace ++ [Event.digitalRead p y] }, ?_,
        rfl, rfl, rfl, rfl⟩
      simp only [World.waitWhileOn, if_neg hy]

theorem World.receive_spec : ∀ (n : Nat) (w : World),
    (World.receive n w).1 = (List.range n).map (fun i => w.miso (w.clocked + i)) ∧
    (World.receive n w).2.clocked = w.clocked + n ∧ (World.receive n w).2.miso = w.miso ∧
    (World.receive n w).2.pin = w.pin ∧ (World.receive n w).2.spi = w.spi ∧
    (World.receive n w).2.inputs = w.inputs := by
  intro n
  induction n with
  | zero => intro w; simp [World.receive]
  | succ n ih =>
    intro w
    obtain ⟨h1, h2, h3, h4, h5, h6⟩ := ih (w.transfer 0).2
    simp only [World.receive]
    refine ⟨?_, ?_, ?_, ?_, ?_, ?_⟩
    · rw [h1, List.range_succ_eq_map]
      simp [World.transfer, Nat.add_assoc, Nat.add_comm 1]
    · rw [h2]; simp [World.transfer]; omega
    · rw [h3]; rfl
    · rw [h4]; rfl
    · rw [h5]; rfl
    · rw [h6]; rfl

theorem read_conversion_of_ready (h : Header) (m : Machine) (hready : Level.LOW ∈ m.hw.inputs) :
    ∃ m', Honeywell_RSC.read_conversion h m =
        some ([m.hw.miso m.hw.clocked, m.hw.miso (m.hw.clocked + 1),
          m.hw.miso (m.hw.clocked + 2)], m') ∧
      m'.dev = m.dev ∧ m'.hw.miso = m.hw.miso ∧ m'.hw.clocked = m.hw.clocked + 3 := by
  obtain ⟨w', h1, _, _, h4, h5⟩ :=
    World.waitWhileOn_of_mem m.dev._drdy_pin Level.HIGH Level.LOW (by decide) m.hw.inputs m.hw hready
  simp only [Honeywell_RSC.read_conversion, World.waitWhile, h1]
  refine ⟨_, congrArg some (Prod.ext ?_ rfl), ?_, ?_, ?_⟩
  · simp [World.receive, World.transfer, Honeywell_RSC.select_adc, World.delayMicroseconds,
      World.digitalWrite, World.beginTransaction, h4, h5]
  · rfl
  · simp [Honeywell_RSC.deselect_adc, World.delayMicroseconds, World.receive, World.transfer,
      World.digitalWrite, World.endTransaction, Honeywell_RSC.select_adc, World.beginTransaction, h4]
  · simp [Honeywell_RSC.deselect_adc, World.delayMicroseconds, World.receive, World.transfer,
      World.digitalWrite, World.endTransaction, Honeywell_RSC.select_adc, World.beginTransaction, h5]

theorem F32.ofInt_mul_fin (n : Int) (q : ℚ) :
    F32.ofInt n * F32.fin q = F32.finite (n * q) (xor (decide ((n : ℚ) < 0)) (decide (q < 0))) :=
  rfl

/-! ## Raw counts -/

/-- C1: the ADC answers a temperature conversion with the bytes `FF FC 00`,
whose bits 23..10 are the 14-bit two's-complement pattern of -1.  With
data-ready going high, low, low, `get_temperature` returns, stores the raw
count 16383 (not -1) and reports 511.96875 degrees; for every answer
`b0 b1 b2` the count it stores is `(b0 * 256 + b1) / 4`, never negative. -/
theorem get_temperature_negative_sample :
    ((Honeywell_RSC.get_temperature datasheet
        (rsc1 (temperature_reply 0xFF 0xFC 0x00) [Level.HIGH, Level.LOW, Level.LOW])).machine?.map
      (fun m => m.dev._t_raw)) = some 16383 ∧
    (Honeywell_RSC.get_temperature datasheet
        (rsc1 (temperature_reply 0xFF 0xFC 0x00) [Level.HIGH, Level.LOW, Level.LOW])).value?
      = some (F32.fin (16383 / 32)) ∧
    ∀ b0 b1 b2 : Byte,
      ((Honeywell_RSC.get_temperature datasheet
          (rsc1 (temperature_reply b0 b1 b2) [Level.HIGH, Level.LOW, Level.LOW])).machine?.map
        (fun m => m.dev._t_raw)) = some (((b0.val * 256 + b1.val) / 4 : Nat) : Int) := by
  refine ⟨by decide, ?_, ?_⟩
  · have e : ((((255 : Byte).val <<< 8) ||| (252 : Byte).val) >>> 2) = 16383 := by decide
    simp [Honeywell_RSC.get_temperature, Honeywell_RSC.start_conversion,
      Honeywell_RSC.read_conversion, rsc1, Honeywell_RSC.construct, Honeywell_RSC.select_adc,
      Honeywell_RSC.deselect_adc, World.waitWhile, World.waitWhileOn, board, World.receive,
      World.transfer, World.delayMicroseconds, World.digitalWrite, World.pinMode,
      World.beginTransaction, World.endTransaction, temperature_reply, Outcome.value?,
      F32.ofInt_mul_fin, F32.finite, blank, e]
    norm_num
  · intro b0 b1 b2
    simp [Honeywell_RSC.get_temperature, Honeywell_RSC.start_conversion,
      Honeywell_RSC.read_conversion, rsc1, Honeywell_RSC.construct, Honeywell_RSC.select_adc,
      Honeywell_RSC.deselect_adc, World.waitWhile, World.waitWhileOn, board, World.receive,
      World.transfer, World.delayMicroseconds, World.digitalWrite, World.pinMode,
      World.beginTransaction, World.endTransaction, temperature_reply, Outcome.machine?, blank,
      or_byte_pair _ _ b1.isLt, Nat.shiftRight_eq_div_pow]

/-- C2: when a data-ready LOW sample is still to come, `read_pressure`
returns, and the raw count `p_raw` it stores for the response bytes
`b0 b1 b2` is the two's-complement value of the 24-bit pattern
`b0 b1 b2`: the pattern itself when `b0 < 0x80` and the pattern minus `2^24`
otherwise; it lies in `[-2^23, 2^23 - 1]`, and `p_raw mod 2^24` is the pattern
again, byte for byte. -/
theorem read_pressure_raw_count (h : Header) (m : Machine)
    (hready : Level.LOW ∈ m.hw.inputs) :
    let b0 := m.hw.miso m.hw.clocked
    let b1 := m.hw.miso (m.hw.clocked + 1)
    let b2 := m.hw.miso (m.hw.clocked + 2)
    let pattern : Int := ((b0.val * 65536 + b1.val * 256 + b2.val : Nat) : Int)
    ∃ (v : F32) (m' : Machine), Honeywell_RSC.read_pressure h m = Outcome.returned v m' ∧
      m'.dev.p_raw = (if b0.val < 128 then pattern else pattern - 2 ^ 24) ∧
      -2 ^ 23 ≤ m'.dev.p_raw ∧ m'.dev.p_raw ≤ 2 ^ 23 - 1 ∧
      m'.dev.p_raw % 2 ^ 24 = pattern ∧
      m'.dev.p_raw % 2 ^ 24 / 65536 = b0.val ∧
      m'.dev.p_raw % 2 ^ 24 / 256 % 256 = b1.val ∧
      m'.dev.p_raw % 2 ^ 24 % 256 = b2.val := by
  intro b0 b1 b2 pattern
  obtain ⟨m1, hconv, _, _, _⟩ := read_conversion_of_ready h m hready
  have hb0 := b0.isLt
  have hb1 := b1.isLt
  have hb2 := b2.isLt
  have hp : Honeywell_RSC.pressure_count b0 b1 b2
      = (if b0.val < 128 then pattern else pattern - 2 ^ 24) := pressure_count_eq b0 b1 b2
  have hret : Honeywell_RSC.read_pressure h m = Outcome.returned
      (Honeywell_RSC.compensate m1.dev._coeff_matrix m1.dev._pressure_range
        m1.dev._pressure_minimum m1.dev._t_raw (Honeywell_RSC.pressure_count b0 b1 b2)).2
      { m1 with dev := { m1.dev with
          p_raw := Honeywell_RSC.pressure_count b0 b1 b2,
          p_int1_c := (Honeywell_RSC.compensate m1.dev._coeff_matrix m1.dev._pressure_range
            m1.dev._pressure_minimum m1.dev._t_raw (Honeywell_RSC.pressure_count b0 b1 b2)).1 } } := by
    simp only [Honeywell_RSC.read_pressure, hconv]
    rfl
  refine ⟨_, _, hret, ?_, ?_, ?_, ?_, ?_, ?_, ?_⟩
  all_goals
    simp only [hp, pattern]
    try (split <;> omega)

/-- C2 on the response `FF FF FF`: the raw count is -1. -/
theorem read_pressure_raw_count_witness :
    Level.LOW ∈ (rsc1 (fun _ => 0xFF) [Level.LOW]).hw.inputs ∧
    ∃ (v : F32) (m' : Machine),
      Honeywell_RSC.read_pressure datasheet (rsc1 (fun _ => 0xFF) [Level.LOW])
        = Outcome.returned v m' ∧ m'.dev.p_raw = -1 := by
  have hin : Level.LOW ∈ (rsc1 (fun _ => 0xFF) [Level.LOW]).hw.inputs := by
    simp [rsc1, Honeywell_RSC.construct, board, World.digitalWrite, World.pinMode]
  obtain ⟨v, m', h1, h2, _⟩ := read_pressure_raw_count datasheet _ hin
  refine ⟨hin, v, m', h1, ?_⟩
  rw [h2]
  decide

/-! ## ADC power-up -/

theorem forall_lt_four (P : Nat → Prop) : (∀ i, i < 4 → P i) ↔ P 0 ∧ P 1 ∧ P 2 ∧ P 3 := by
  constructor
  · intro h
    exact ⟨h 0 (by omega), h 1 (by omega), h 2 (by omega), h 3 (by omega)⟩
  · rintro ⟨h0, h1, h2, h3⟩ i hi
    interval_cases i <;> assumption

theorem readback_range4 (v : Nat → Byte) (m : Machine) :
    let echo : Nat → Byte := fun i => m.hw.miso (m.hw.clocked + 1 + 2 * i)
    ((∃ m', Honeywell_RSC.readback v (List.range 4) m = Outcome.returned () m')
      ↔ ∀ i, i < 4 → echo i = v i) ∧
    (∀ m', Honeywell_RSC.readback v (List.range 4) m = Outcome.returned () m' →
      m'.dev = m.dev ∧ m'.hw.pin = m.hw.pin ∧ m'.hw.spi = m.hw.spi ∧
        m'.hw.clocked = m.hw.clocked + 8) ∧
    (∀ i, i < 4 → echo i ≠ v i → (∀ j, j < i → echo j = v j) →
      ∃ m', Honeywell_RSC.readback v (List.range 4) m = Outcome.halted i m' ∧
        m'.hw.clocked = m.hw.clocked + 2 + 2 * i) ∧
    Honeywell_RSC.readback v (List.range 4) m ≠ Outcome.stalled := by
  intro echo
  have hr : List.range 4 = [0, 1, 2, 3] := by decide
  have e0 : m.hw.miso (m.hw.clocked + 1) = echo 0 := rfl
  have e1 : m.hw.miso (m.hw.clocked + 1 + 1 + 1) = echo 1 := rfl
  have e2 : m.hw.miso (m.hw.clocked + 1 + 1 + 1 + 1 + 1) = echo 2 := rfl
  have e3 : m.hw.miso (m.hw.clocked + 1 + 1 + 1 + 1 + 1 + 1 + 1) = echo 3 := rfl
  rw [hr, forall_lt_four]
  simp only [Honeywell_RSC.readback, World.transfer, e0, e1, e2, e3]
  refine ⟨?_, ?_, ?_, ?_⟩
  · by_cases h0 : v 0 = echo 0 <;> by_cases h1 : v 1 = echo 1 <;> by_cases h2 : v 2 = echo 2 <;>
      by_cases h3 : v 3 = echo 3 <;> simp [h0, h1, h2, h3, eq_comm]
  · intro m'
    by_cases h0 : v 0 = echo 0 <;> by_cases h1 : v 1 = echo 1 <;> by_cases h2 : v 2 = echo 2 <;>
      by_cases h3 : v 3 = echo 3 <;> simp [h0, h1, h2, h3]
    intro hm
    subst hm
    exact ⟨rfl, rfl, rfl, rfl⟩
  · intro i hi hne hlow
    have hl : ∀ j, j < i → v j = echo j := fun j hj => (hlow j hj).symm
    have hne' : ¬ v i = echo i := fun e => hne e.symm
    interval_cases i
    · simp [hne']
    · simp [hl 0 (by omega), hne']
    · simp [hl 0 (by omega), hl 1 (by omega), hne']
    · simp [hl 0 (by omega), hl 1 (by omega), hl 2 (by omega), hne']
  · by_cases h0 : v 0 = echo 0 <;> by_cases h1 : v 1 = echo 1 <;> by_cases h2 : v 2 = echo 2 <;>
      by_cases h3 : v 3 = echo 3 <;> simp [h0, h1, h2, h3]

/-- C3: `setup_adc` returns exactly when each of the four bytes echoed on
readback (the answers to the dummy transfers 10, 12, 14 and 16 after entry)
equals the seed byte of the same register; when some byte differs it enters
the endless report loop for the lowest register that differs, having made
the two transfers of that register's readback and none for a higher register;
it never waits on data-ready. -/
theorem setup_adc_verifies_readback (h : Header) (v : Nat → Byte) (m : Machine) :
    let echo : Nat → Byte := fun i => m.hw.miso (m.hw.clocked + 10 + 2 * i)
    ((∃ m', Honeywell_RSC.setup_adc h v m = Outcome.returned () m') ↔
      ∀ i, i < 4 → echo i = v i) ∧
    (∀ i, i < 4 → echo i ≠ v i → (∀ j, j < i → echo j = v j) →
      ∃ m', Honeywell_RSC.setup_adc h v m = Outcome.halted i m' ∧
        m'.hw.clocked = m.hw.clocked + 11 + 2 * i) ∧
    Honeywell_RSC.setup_adc h v m ≠ Outcome.stalled := by
  intro echo
  unfold Honeywell_RSC.setup_adc
  simp only []
  generalize hM : ({ Honeywell_RSC.select_adc m with hw := _ } : Machine) = M9
  have hc : M9.hw.clocked = m.hw.clocked + 9 := by
    rw [← hM]; rfl
  have hmiso : M9.hw.miso = m.hw.miso := by
    rw [← hM]; rfl
  obtain ⟨hiff, -, hhalt, hns⟩ := readback_range4 v M9
  have hecho : ∀ i, M9.hw.miso (M9.hw.clocked + 1 + 2 * i) = echo i := by
    intro i
    simp only [echo, hc, hmiso]
  simp only [hecho] at hiff hhalt
  refine ⟨?_, ?_, ?_⟩
  · rw [← hiff]
    constructor
    · rintro ⟨m', hm'⟩
      rcases hrb : Honeywell_RSC.readback v (List.range 4) M9 with ⟨u, m1⟩ | _ | ⟨r, m1⟩
      · exact ⟨m1, rfl⟩
      · exact absurd hrb hns
      · rw [hrb] at hm'
        simp at hm'
    · rintro ⟨m1, hm1⟩
      rw [hm1]
      exact ⟨_, rfl⟩
  · intro i hi hne hlow
    obtain ⟨m1, hm1, hcl⟩ := hhalt i hi hne hlow
    rw [hm1]
    exact ⟨m1, rfl, by rw [hcl, hc]⟩
  · rcases hrb : Honeywell_RSC.readback v (List.range 4) M9 with ⟨u, m1⟩ | _ | ⟨r, m1⟩
    · simp
    · exact absurd hrb hns
    · simp

/-- C3 on the scenarios of the specification: seeds `01 02 03 04` echoed
unchanged make `setup_adc` return; the echo `01 02 03 FF` makes it enter the
report loop for register 3. -/
theorem setup_adc_verifies_readback_witness :
    (∃ m', Honeywell_RSC.setup_adc datasheet seeds_1234
        (rsc1 (echo_reply 0x01 0x02 0x03 0x04) []) = Outcome.returned () m') ∧
    (∃ m', Honeywell_RSC.setup_adc datasheet seeds_1234
        (rsc1 (echo_reply 0x01 0x02 0x03 0xFF) []) = Outcome.halted 3 m') := by
  constructor
  · apply (setup_adc_verifies_readback datasheet seeds_1234
      (rsc1 (echo_reply 0x01 0x02 0x03 0x04) [])).1.mpr
    intro i hi
    interval_cases i <;> decide
  · obtain ⟨m', hm', _⟩ := (setup_adc_verifies_readback datasheet seeds_1234
      (rsc1 (echo_reply 0x01 0x02 0x03 0xFF) [])).2.1 3 (by decide) (by decide)
      (by intro j hj; interval_cases j <;> decide)
    exact ⟨m', hm'⟩

/-- C4: seeds `01 02 03 04` are echoed unchanged, so `setup_adc` returns; the
ADC select (pin 10) is then still LOW and the SPI transaction that
`select_adc` began is still open. -/
theorem setup_adc_leaves_adc_selected :
    (Honeywell_RSC.setup_adc datasheet seeds_1234
        (rsc1 (echo_reply 0x01 0x02 0x03 0x04) [])).machine?.map
      (fun m => (m.hw.pin m.dev._cs_adc_pin, m.hw.spi))
    = some (Level.LOW, some ⟨125000, BitOrder.MSBFIRST, SPIMode.SPI_MODE1⟩) := by
  decide

/-! ## Floating-point arithmetic -/

namespace F32

theorem mul_def (a b : F32) : a * b = F32.mul a b := rfl

theorem add_def (a b : F32) : a + b = F32.add a b := rfl

theorem sub_def (a b : F32) : a - b = F32.add a (F32.neg b) := rfl

theorem div_def (a b : F32) : a / b = F32.div a b := rfl

theorem toRat?_finite (q : ℚ) (s : Bool) : (finite q s).toRat? = some q := by
  unfold finite zero
  by_cases hq : q = 0
  · cases s <;> simp [hq, toRat?]
  · simp [hq, toRat?]

theorem toRat?_eq_some {a : F32} {x : ℚ} (h : a.toRat? = some x) :
    (a = fin x) ∨ (a = nzero ∧ x = 0) := by
  cases a with
  | fin q => left; simp [toRat?] at h; rw [h]
  | nzero => right; simp [toRat?] at h; exact ⟨rfl, h.symm⟩
  | inf s => simp [toRat?] at h
  | nan => simp [toRat?] at h

theorem toRat?_mul {a b : F32} {x y : ℚ} (ha : a.toRat? = some x) (hb : b.toRat? = some y) :
    (a * b).toRat? = some (x * y) := by
  rcases toRat?_eq_some ha with rfl | ⟨rfl, rfl⟩ <;>
    rcases toRat?_eq_some hb with rfl | ⟨rfl, rfl⟩ <;>
    simp [mul_def, F32.mul, toRat?_finite, mag]

theorem toRat?_add {a b : F32} {x y : ℚ} (ha : a.toRat? = some x) (hb : b.toRat? = some y) :
    (a + b).toRat? = some (x + y) := by
  rcases toRat?_eq_some ha with rfl | ⟨rfl, rfl⟩ <;>
    rcases toRat?_eq_some hb with rfl | ⟨rfl, rfl⟩ <;>
    simp [add_def, F32.add, toRat?_finite, mag]

theorem toRat?_neg {a : F32} {x : ℚ} (ha : a.toRat? = some x) : (F32.neg a).toRat? = some (-x) := by
  rcases toRat?_eq_some ha with rfl | ⟨rfl, rfl⟩
  · by_cases hx : x = 0 <;> simp [F32.neg, hx, toRat?]
  · simp [F32.neg, toRat?]

theorem toRat?_sub {a b : F32} {x y : ℚ} (ha : a.toRat? = some x) (hb : b.toRat? = some y) :
    (a - b).toRat? = some (x - y) := by
  rw [sub_def, sub_eq_add_neg]
  exact toRat?_add ha (toRat?_neg hb)

theorem toRat?_div {a b : F32} {x y : ℚ} (ha : a.toRat? = some x) (hb : b.toRat? = some y)
    (hy : y ≠ 0) : (a / b).toRat? = some (x / y) := by
  rcases toRat?_eq_some ha with rfl | ⟨rfl, rfl⟩ <;>
    rcases toRat?_eq_some hb with rfl | ⟨rfl, rfl⟩ <;>
    simp_all [div_def, F32.div, toRat?_finite, mag, isZero]

theorem toRat?_ofInt (n : Int) : (ofInt n).toRat? = some (n : ℚ) := rfl

end F32

/-! ## Compensation -/

theorem compensate_toRat? (cm : Nat → Nat → F32) (range minimum : F32) (t p : Int)
    (c : Nat → Nat → ℚ) (R M : ℚ)
    (hc : ∀ i j, i < 3 → j < 4 → (cm i j).toRat? = some (c i j))
    (hR : range.toRat? = some R) (hM : minimum.toRat? = some M)
    (hden : c 1 0 + c 1 1 * t + c 1 2 * (t : ℚ) ^ 2 + c 1 3 * (t : ℚ) ^ 3 ≠ 0) :
    (Honeywell_RSC.compensate cm range minimum t p).2.toRat? =
      some ((c 2 0
          + c 2 1 * ((p - (c 0 0 + c 0 1 * t + c 0 2 * (t : ℚ) ^ 2 + c 0 3 * (t : ℚ) ^ 3))
              / (c 1 0 + c 1 1 * t + c 1 2 * (t : ℚ) ^ 2 + c 1 3 * (t : ℚ) ^ 3))
          + c 2 2 * ((p - (c 0 0 + c 0 1 * t + c 0 2 * (t : ℚ) ^ 2 + c 0 3 * (t : ℚ) ^ 3))
              / (c 1 0 + c 1 1 * t + c 1 2 * (t : ℚ) ^ 2 + c 1 3 * (t : ℚ) ^ 3)) ^ 2
          + c 2 3 * ((p - (c 0 0 + c 0 1 * t + c 0 2 * (t : ℚ) ^ 2 + c 0 3 * (t : ℚ) ^ 3))
              / (c 1 0 + c 1 1 * t + c 1 2 * (t : ℚ) ^ 2 + c 1 3 * (t : ℚ) ^ 3)) ^ 3) * R + M) := by
  have ht := F32.toRat?_ofInt t
  have hp := F32.toRat?_ofInt p
  have poly : ∀ (i : Nat), i < 3 → ∀ (u : F32) (x : ℚ), u.toRat? = some x →
      (cm i 3 * u * u * u + cm i 2 * u * u + cm i 1 * u + cm i 0).toRat?
        = some (c i 3 * x * x * x + c i 2 * x * x + c i 1 * x + c i 0) := by
    intro i hi u x hu
    have h0 := hc i 0 hi (by omega)
    have h1 := hc i 1 hi (by omega)
    have h2 := hc i 2 hi (by omega)
    have h3 := hc i 3 hi (by omega)
    exact F32.toRat?_add (F32.toRat?_add (F32.toRat?_add
      (F32.toRat?_mul (F32.toRat?_mul (F32.toRat?_mul h3 hu) hu) hu)
      (F32.toRat?_mul (F32.toRat?_mul h2 hu) hu)) (F32.toRat?_mul h1 hu)) h0
  have hoff := poly 0 (by omega) _ _ ht
  have hspan := poly 1 (by omega) _ _ ht
  have hden' : c 1 3 * (t : ℚ) * t * t + c 1 2 * t * t + c 1 1 * t + c 1 0 ≠ 0 := by
    intro e
    apply hden
    rw [← e]
    ring
  have hq := F32.toRat?_div (F32.toRat?_sub hp hoff) hspan hden'
  have hshape := poly 2 (by omega) _ _ hq
  have hres := F32.toRat?_add (F32.toRat?_mul hshape hR) hM
  unfold Honeywell_RSC.compensate
  simp only []
  rw [hres]
  congr 1
  have e0 : c 0 0 + c 0 1 * t + c 0 2 * (t : ℚ) ^ 2 + c 0 3 * (t : ℚ) ^ 3
      = c 0 3 * (t : ℚ) * t * t + c 0 2 * t * t + c 0 1 * t + c 0 0 := by ring
  have e1 : c 1 0 + c 1 1 * t + c 1 2 * (t : ℚ) ^ 2 + c 1 3 * (t : ℚ) ^ 3
      = c 1 3 * (t : ℚ) * t * t + c 1 2 * t * t + c 1 1 * t + c 1 0 := by ring
  rw [e0, e1]
  ring

namespace F32

theorem nan_mul (a : F32) : nan * a = nan := by
  cases a <;> rfl

theorem nan_add (a : F32) : nan + a = nan := by
  cases a <;> rfl

theorem zero_mul_finite {a b : F32} {y : ℚ} (ha : a = fin 0 ∨ a = nzero)
    (hb : b.toRat? = some y) : a * b = fin 0 ∨ a * b = nzero := by
  rcases toRat?_eq_some hb with rfl | ⟨rfl, rfl⟩ <;> rcases ha with rfl | rfl <;>
    simp [mul_def, F32.mul, finite, zero, mag, sign] <;>
    by_cases hy : y < 0 <;> simp [hy] <;> exact le_of_not_lt hy

theorem zero_add_zero {a b : F32} (ha : a = fin 0 ∨ a = nzero) (hb : b = fin 0 ∨ b = nzero) :
    a + b = fin 0 ∨ a + b = nzero := by
  rcases ha with rfl | rfl <;> rcases hb with rfl | rfl <;>
    simp [add_def, F32.add, finite, zero, mag, sign]

theorem zero_add_fin {a : F32} (q : ℚ) (hq : 0 ≤ q) (ha : a = fin 0 ∨ a = nzero) :
    a + fin q = fin q := by
  have hs : ¬ q < 0 := not_lt.mpr hq
  rcases ha with rfl | rfl <;> by_cases h0 : q = 0 <;>
    simp [add_def, F32.add, finite, zero, mag, sign, h0, hs]

theorem zero_poly {c3 c2 c1 u : F32} {y : ℚ} (q : ℚ) (hq : 0 ≤ q)
    (h3 : c3 = fin 0 ∨ c3 = nzero) (h2 : c2 = fin 0 ∨ c2 = nzero) (h1 : c1 = fin 0 ∨ c1 = nzero)
    (hu : u.toRat? = some y) :
    c3 * u * u * u + c2 * u * u + c1 * u + fin q = fin q :=
  zero_add_fin q hq (zero_add_zero (zero_add_zero
    (zero_mul_finite (zero_mul_finite (zero_mul_finite h3 hu) hu) hu)
    (zero_mul_finite (zero_mul_finite h2 hu) hu)) (zero_mul_finite h1 hu))

theorem fin_sub_zero (q : ℚ) : fin q - fin 0 = fin q := by
  by_cases h0 : q = 0 <;> simp [sub_def, F32.neg, F32.add, finite, zero, mag, sign, h0]

theorem zero_mul_div_zero (q : ℚ) : fin 0 * (fin q / fin 0) = nan := by
  by_cases h0 : q = 0 <;> simp [div_def, mul_def, F32.div, F32.mul, isZero, h0]

end F32

theorem compensate_zero_span (cm : Nat → Nat → F32) (t p : Int)
    (hcm : ∀ i j, i < 3 → j < 4 → cm i j = if i = 2 ∧ j = 0 then F32.fin 1 else F32.fin 0) :
    (Honeywell_RSC.compensate cm (F32.fin 100) (F32.fin 0) t p).2 = F32.nan := by
  have z : ∀ i j, i < 3 → j < 4 → ¬ (i = 2 ∧ j = 0) → cm i j = F32.fin 0 := by
    intro i j hi hj hn
    rw [hcm i j hi hj, if_neg hn]
  have zl : ∀ i j, i < 3 → j < 4 → ¬ (i = 2 ∧ j = 0) → (cm i j = F32.fin 0 ∨ cm i j = F32.nzero) :=
    fun i j hi hj hn => Or.inl (z i j hi hj hn)
  have ht := F32.toRat?_ofInt t
  have hoff := F32.zero_poly 0 (le_refl 0) (zl 0 3 (by omega) (by omega) (by omega))
    (zl 0 2 (by omega) (by omega) (by omega)) (zl 0 1 (by omega) (by omega) (by omega)) ht
  have hspan := F32.zero_poly 0 (le_refl 0) (zl 1 3 (by omega) (by omega) (by omega))
    (zl 1 2 (by omega) (by omega) (by omega)) (zl 1 1 (by omega) (by omega) (by omega)) ht
  unfold Honeywell_RSC.compensate
  simp only []
  rw [z 0 0 (by omega) (by omega) (by omega), hoff, z 1 0 (by omega) (by omega) (by omega), hspan,
    z 2 3 (by omega) (by omega) (by omega)]
  simp only [F32.ofInt, F32.fin_sub_zero, F32.zero_mul_div_zero, F32.nan_mul, F32.nan_add]

theorem compensate_unit_span (cm : Nat → Nat → F32) (t p : Int)
    (hcm : ∀ i j, i < 3 → j < 4 →
      cm i j = if (i = 1 ∨ i = 2) ∧ j = 0 then F32.fin 1 else F32.fin 0) :
    (Honeywell_RSC.compensate cm (F32.fin 100) (F32.fin 0) t p).2 = F32.fin 100 := by
  have z : ∀ i j, i < 3 → j < 4 → ¬ ((i = 1 ∨ i = 2) ∧ j = 0) → cm i j = F32.fin 0 := by
    intro i j hi hj hn
    rw [hcm i j hi hj, if_neg hn]
  have zl : ∀ i j, i < 3 → j < 4 → ¬ ((i = 1 ∨ i = 2) ∧ j = 0) →
      (cm i j = F32.fin 0 ∨ cm i j = F32.nzero) :=
    fun i j hi hj hn => Or.inl (z i j hi hj hn)
  have one : ∀ i, i = 1 ∨ i = 2 → cm i 0 = F32.fin 1 := by
    intro i hi
    rw [hcm i 0 (by omega) (by omega), if_pos ⟨hi, rfl⟩]
  have ht := F32.toRat?_ofInt t
  have hoff := F32.zero_poly 0 (le_refl 0) (zl 0 3 (by omega) (by omega) (by omega))
    (zl 0 2 (by omega) (by omega) (by omega)) (zl 0 1 (by omega) (by omega) (by omega)) ht
  have hspan := F32.zero_poly 1 (by norm_num) (zl 1 3 (by omega) (by omega) (by omega))
    (zl 1 2 (by omega) (by omega) (by omega)) (zl 1 1 (by omega) (by omega) (by omega)) ht
  have hq : (F32.fin (p : ℚ) / F32.fin 1).toRat? = some ((p : ℚ) / 1) :=
    F32.toRat?_div rfl rfl (by norm_num)
  have hshape := F32.zero_poly 1 (by norm_num) (zl 2 3 (by omega) (by omega) (by omega))
    (zl 2 2 (by omega) (by omega) (by omega)) (zl 2 1 (by omega) (by omega) (by omega)) hq
  unfold Honeywell_RSC.compensate
  simp only []
  rw [z 0 0 (by omega) (by omega) (by omega), hoff, one 1 (Or.inl rfl), hspan, one 2 (Or.inr rfl)]
  simp only [F32.ofInt, F32.fin_sub_zero]
  rw [hshape]
  simp [F32.mul_def, F32.add_def, F32.mul, F32.add, F32.finite, F32.mag]

theorem read_pressure_of_ready (h : Header) (m : Machine) (hready : Level.LOW ∈ m.hw.inputs) :
    ∃ m', Honeywell_RSC.read_pressure h m = Outcome.returned
        (Honeywell_RSC.compensate m.dev._coeff_matrix m.dev._pressure_range
          m.dev._pressure_minimum m.dev._t_raw m'.dev.p_raw).2 m' ∧
      m'.dev.p_raw = Honeywell_RSC.pressure_count (m.hw.miso m.hw.clocked)
        (m.hw.miso (m.hw.clocked + 1)) (m.hw.miso (m.hw.clocked + 2)) ∧
      m'.dev._coeff_matrix = m.dev._coeff_matrix ∧
      m'.dev._pressure_range = m.dev._pressure_range ∧
      m'.dev._pressure_minimum = m.dev._pressure_minimum := by
  obtain ⟨m1, hconv, hdev, _, _⟩ := read_conversion_of_ready h m hready
  simp only [Honeywell_RSC.read_pressure, hconv]
  refine ⟨{ m1 with dev := { m1.dev with
      p_raw := Honeywell_RSC.pressure_count (m.hw.miso m.hw.clocked)
        (m.hw.miso (m.hw.clocked + 1)) (m.hw.miso (m.hw.clocked + 2)),
      p_int1_c := (Honeywell_RSC.compensate m.dev._coeff_matrix m.dev._pressure_range
        m.dev._pressure_minimum m.dev._t_raw
        (Honeywell_RSC.pressure_count (m.hw.miso m.hw.clocked)
          (m.hw.miso (m.hw.clocked + 1)) (m.hw.miso (m.hw.clocked + 2)))).1 } }, ?_, rfl, ?_, ?_, ?_⟩
  · simp [hdev]
  · simp [hdev]
  · simp [hdev]
  · simp [hdev]

theorem ready_calibrated (cm : Nat → Nat → F32) (range minimum : F32) (t_raw : Int)
    (miso : Nat → Byte) :
    Level.LOW ∈ (calibrated cm range minimum t_raw (rsc1 miso [Level.LOW])).hw.inputs := by
  simp [calibrated, rsc1, Honeywell_RSC.construct, board, World.digitalWrite, World.pinMode]

/-- C6: when a data-ready LOW sample is still to come, the calibration data
are finite numbers (matrix `c`, range `R`, minimum `M`) and the span
denominator `c[1][0] + c[1][1]*T + c[1][2]*T^2 + c[1][3]*T^3` at the stored raw
temperature count `T = _t_raw` is not zero, `read_pressure` returns, and the
value it returns is, in exact arithmetic, the three-stage formula
`(c[2][0] + c[2][1]*q + c[2][2]*q^2 + c[2][3]*q^3) * R + M` with
`q = (P - offset(T)) / span(T)` for the raw pressure count `P` it stored. -/
theorem read_pressure_compensated_value (h : Header) (m : Machine) (c : Nat → Nat → ℚ)
    (R M : ℚ) (hready : Level.LOW ∈ m.hw.inputs)
    (hc : ∀ i j, i < 3 → j < 4 → (m.dev._coeff_matrix i j).toRat? = some (c i j))
    (hR : m.dev._pressure_range.toRat? = some R)
    (hM : m.dev._pressure_minimum.toRat? = some M)
    (hden : c 1 0 + c 1 1 * m.dev._t_raw + c 1 2 * (m.dev._t_raw : ℚ) ^ 2
      + c 1 3 * (m.dev._t_raw : ℚ) ^ 3 ≠ 0) :
    ∃ (v : F32) (m' : Machine), Honeywell_RSC.read_pressure h m = Outcome.returned v m' ∧
      v.toRat? = some (compensation_formula c R M m.dev._t_raw m'.dev.p_raw) := by
  obtain ⟨m', hret, _⟩ := read_pressure_of_ready h m hready
  refine ⟨_, m', hret, ?_⟩
  rw [compensate_toRat? _ _ _ _ _ c R M hc hR hM hden]
  rfl

/-- C6 on a sensor with unit span and linear shape, range 100 and minimum 0,
raw temperature count 0 and the response `00 00 01`. -/
theorem read_pressure_compensated_value_witness :
    ∃ (v : F32) (m' : Machine),
      Honeywell_RSC.read_pressure datasheet
        (calibrated (fun i j => F32.fin (linear_coefficients i j)) (F32.fin 100) (F32.fin 0) 0
          (rsc1 (pressure_reply 0 0 1) [Level.LOW])) = Outcome.returned v m' ∧
      v.toRat? = some (compensation_formula linear_coefficients 100 0 ((0 : Int) : ℚ) m'.dev.p_raw) :=
  read_pressure_compensated_value datasheet
    (calibrated (fun i j => F32.fin (linear_coefficients i j)) (F32.fin 100) (F32.fin 0) 0
      (rsc1 (pressure_reply 0 0 1) [Level.LOW]))
    linear_coefficients 100 0 (ready_calibrated _ _ _ _ _) (fun _ _ _ _ => rfl) rfl rfl
    (by simp [calibrated, linear_coefficients])

/-- C7, as stated, fails: with the matrix zero except `coeff[2][0] = 1.0`,
range 100.0 and minimum 0.0, raw temperature count 0 and the response
`00 00 01` (raw pressure count 1), `read_pressure` returns NaN, not 100.0. -/
theorem read_pressure_zero_span_counterexample :
    (Honeywell_RSC.read_pressure datasheet
        (calibrated shape_only (F32.fin 100) (F32.fin 0) 0
          (rsc1 (pressure_reply 0 0 1) [Level.LOW]))).value? = some F32.nan ∧
    (Honeywell_RSC.read_pressure datasheet
        (calibrated shape_only (F32.fin 100) (F32.fin 0) 0
          (rsc1 (pressure_reply 0 0 1) [Level.LOW]))).value? ≠ some (F32.fin 100) := by
  obtain ⟨m', hret, _⟩ := read_pressure_of_ready datasheet
    (calibrated shape_only (F32.fin 100) (F32.fin 0) 0 (rsc1 (pressure_reply 0 0 1) [Level.LOW]))
    (ready_calibrated _ _ _ _ _)
  have hnan := compensate_zero_span shape_only 0 m'.dev.p_raw (fun _ _ _ _ => rfl)
  have hv : (Honeywell_RSC.read_pressure datasheet
      (calibrated shape_only (F32.fin 100) (F32.fin 0) 0
        (rsc1 (pressure_reply 0 0 1) [Level.LOW]))).value? = some F32.nan := by
    rw [hret]
    exact congrArg some hnan
  exact ⟨hv, by rw [hv]; decide⟩

/-- C7, amended: with range 100.0, minimum 0.0 and a data-ready LOW sample
still to come, for every raw pressure count and every raw temperature count
`read_pressure` returns NaN when the matrix is zero except `coeff[2][0] = 1.0`
(the span stage divides by zero), and returns exactly 100.0 when the matrix is
zero except `coeff[1][0] = 1.0` and `coeff[2][0] = 1.0`. -/
theorem read_pressure_shape_only (h : Header) (m : Machine)
    (hready : Level.LOW ∈ m.hw.inputs)
    (hR : m.dev._pressure_range = F32.fin 100) (hM : m.dev._pressure_minimum = F32.fin 0) :
    ((∀ i j, i < 3 → j < 4 → m.dev._coeff_matrix i j = shape_only i j) →
      ∃ m', Honeywell_RSC.read_pressure h m = Outcome.returned F32.nan m') ∧
    ((∀ i j, i < 3 → j < 4 → m.dev._coeff_matrix i j = shape_unit_span i j) →
      ∃ m', Honeywell_RSC.read_pressure h m = Outcome.returned (F32.fin 100) m') := by
  obtain ⟨m', hret, _⟩ := read_pressure_of_ready h m hready
  rw [hR, hM] at hret
  constructor
  · intro hcm
    rw [compensate_zero_span _ _ _ hcm] at hret
    exact ⟨m', hret⟩
  · intro hcm
    rw [compensate_unit_span _ _ _ hcm] at hret
    exact ⟨m', hret⟩

/-- C7, amended, at raw temperature count -40 and the response `12 34 56`. -/
theorem read_pressure_shape_only_witness :
    (∃ m', Honeywell_RSC.read_pressure datasheet
        (calibrated shape_only (F32.fin 100) (F32.fin 0) (-40)
          (rsc1 (pressure_reply 0x12 0x34 0x56) [Level.LOW])) = Outcome.returned F32.nan m') ∧
    (∃ m', Honeywell_RSC.read_pressure datasheet
        (calibrated shape_unit_span (F32.fin 100) (F32.fin 0) (-40)
          (rsc1 (pressure_reply 0x12 0x34 0x56) [Level.LOW]))
        = Outcome.returned (F32.fin 100) m') :=
  ⟨(read_pressure_shape_only datasheet
      (calibrated shape_only (F32.fin 100) (F32.fin 0) (-40)
        (rsc1 (pressure_reply 0x12 0x34 0x56) [Level.LOW]))
      (ready_calibrated _ _ _ _ _) rfl rfl).1 (fun _ _ _ _ => rfl),
   (read_pressure_shape_only datasheet
      (calibrated shape_unit_span (F32.fin 100) (F32.fin 0) (-40)
        (rsc1 (pressure_reply 0x12 0x34 0x56) [Level.LOW]))
      (ready_calibrated _ _ _ _ _) rfl rfl).2 (fun _ _ _ _ => rfl)⟩

/-! ## Data rate and mode -/

theorem datasheet_ratesInOrder : datasheet.RatesInOrder := by
  unfold Header.RatesInOrder datasheet
  decide

theorem mem_normalRates (h : Header) (hord : h.RatesInOrder) (r : Nat) :
    r ∈ h.normalRates ↔ h.N_DR_20_SPS ≤ r ∧ r ≤ h.N_DR_1000_SPS := by
  unfold Header.RatesInOrder at hord
  simp only [Header.normalRates, List.mem_cons, List.mem_singleton, List.mem_nil_iff, or_false]
  omega

theorem mem_fastRates (h : Header) (hord : h.RatesInOrder) (r : Nat) :
    r ∈ h.fastRates ↔ h.F_DR_40_SPS ≤ r ∧ r ≤ h.F_DR_2000_SPS := by
  unfold Header.RatesInOrder at hord
  simp only [Header.fastRates, List.mem_cons, List.mem_singleton, List.mem_nil_iff, or_false]
  omega

theorem not_normal_and_fast (h : Header) (hord : h.RatesInOrder) (r : Nat) :
    ¬ (r ∈ h.normalRates ∧ r ∈ h.fastRates) := by
  rw [mem_normalRates h hord, mem_fastRates h hord]
  unfold Header.RatesInOrder at hord
  omega

theorem set_mode_data_rate (h : Header) (mode : RSC_MODE) (m : Machine) :
    (Honeywell_RSC.set_mode h mode m).dev._data_rate = m.dev._data_rate := by
  cases mode <;> simp only [Honeywell_RSC.set_mode] <;> (try split) <;> rfl

theorem set_mode_mode (h : Header) (hord : h.RatesInOrder) (mode : RSC_MODE) (m : Machine) :
    (Honeywell_RSC.set_mode h mode m).dev._mode =
      if mode = RSC_MODE.NORMAL_MODE ∧ m.dev._data_rate ∈ h.normalRates then RSC_MODE.NORMAL_MODE
      else if mode = RSC_MODE.FAST_MODE ∧ m.dev._data_rate ∈ h.fastRates then RSC_MODE.FAST_MODE
      else RSC_MODE.NA_MODE := by
  have hn := mem_normalRates h hord m.dev._data_rate
  have hf := mem_fastRates h hord m.dev._data_rate
  cases mode
  · by_cases hr : m.dev._data_rate ∈ h.normalRates
    · have hr' := hn.mp hr
      have hc : ¬ (m.dev._data_rate < h.N_DR_20_SPS ∨ m.dev._data_rate > h.N_DR_1000_SPS) := by omega
      simp [Honeywell_RSC.set_mode, hc, hr]
    · have hc : m.dev._data_rate < h.N_DR_20_SPS ∨ m.dev._data_rate > h.N_DR_1000_SPS := by
        by_contra hcon
        exact hr (hn.mpr (by omega))
      simp [Honeywell_RSC.set_mode, hc, hr, Honeywell_RSC.warn]
  · simp [Honeywell_RSC.set_mode]
  · by_cases hr : m.dev._data_rate ∈ h.fastRates
    · have hr' := hf.mp hr
      have hc : ¬ (m.dev._data_rate < h.F_DR_40_SPS ∨ m.dev._data_rate > h.F_DR_2000_SPS) := by omega
      simp [Honeywell_RSC.set_mode, hc, hr]
    · have hc : m.dev._data_rate < h.F_DR_40_SPS ∨ m.dev._data_rate > h.F_DR_2000_SPS := by
        by_contra hcon
        exact hr (hf.mpr (by omega))
      simp [Honeywell_RSC.set_mode, hc, hr, Honeywell_RSC.warn]

theorem set_data_rate_spec (h : Header) (hord : h.RatesInOrder) (dr : Nat) (m : Machine) :
    (Honeywell_RSC.set_data_rate h dr m).dev._data_rate = dr ∧
    (Honeywell_RSC.set_data_rate h dr m).dev._mode =
      if dr ∈ h.normalRates then RSC_MODE.NORMAL_MODE
      else if dr ∈ h.fastRates then RSC_MODE.FAST_MODE else RSC_MODE.NA_MODE := by
  unfold Honeywell_RSC.set_data_rate
  simp only []
  by_cases hn : dr ∈ h.normalRates
  · simp only [if_pos hn, set_mode_data_rate, set_mode_mode h hord]
    simp [hn]
  · by_cases hf : dr ∈ h.fastRates
    · simp only [if_neg hn, if_pos hf, set_mode_data_rate, set_mode_mode h hord]
      simp [hf]
    · simp only [if_neg hn, if_neg hf, set_mode_data_rate, set_mode_mode h hord]
      simp

/-- C8: under the enumerator order assumed of the header (each family a
contiguous ascending range), for every prior state and every data rate `dr`,
after `set_data_rate(dr)` the stored rate is `dr` and the stored mode is
`NORMAL_MODE` for the seven normal-family rates, `FAST_MODE` for the seven
fast-family rates and `NA_MODE` for every other value; the stored rate and
mode are the same whatever the prior state was. -/
theorem set_data_rate_derives_mode (h : Header) (hord : h.RatesInOrder) (m : Machine)
    (dr : Nat) :
    (Honeywell_RSC.set_data_rate h dr m).dev._data_rate = dr ∧
    (dr ∈ h.normalRates → (Honeywell_RSC.set_data_rate h dr m).dev._mode = RSC_MODE.NORMAL_MODE) ∧
    (dr ∈ h.fastRates → (Honeywell_RSC.set_data_rate h dr m).dev._mode = RSC_MODE.FAST_MODE) ∧
    (dr ∉ h.normalRates → dr ∉ h.fastRates →
      (Honeywell_RSC.set_data_rate h dr m).dev._mode = RSC_MODE.NA_MODE) ∧
    (∀ m2 : Machine,
      (Honeywell_RSC.set_data_rate h dr m2).dev._data_rate
        = (Honeywell_RSC.set_data_rate h dr m).dev._data_rate ∧
      (Honeywell_RSC.set_data_rate h dr m2).dev._mode
        = (Honeywell_RSC.set_data_rate h dr m).dev._mode) := by
  obtain ⟨hrate, hmode⟩ := set_data_rate_spec h hord dr m
  refine ⟨hrate, ?_, ?_, ?_, ?_⟩
  · intro hn
    rw [hmode, if_pos hn]
  · intro hf
    have hn : dr ∉ h.normalRates := fun hn => not_normal_and_fast h hord dr ⟨hn, hf⟩
    rw [hmode, if_neg hn, if_pos hf]
  · intro hn hf
    rw [hmode, if_neg hn, if_neg hf]
  · intro m2
    obtain ⟨hrate2, hmode2⟩ := set_data_rate_spec h hord dr m2
    exact ⟨hrate2.trans hrate.symm, hmode2.trans hmode.symm⟩

/-- C8 on the data-sheet header: `set_data_rate(F_DR_180_SPS)` on the fresh
object stores that rate and `FAST_MODE`. -/
theorem set_data_rate_derives_mode_witness :
    datasheet.RatesInOrder ∧
    (Honeywell_RSC.set_data_rate datasheet datasheet.F_DR_180_SPS (rsc1 (fun _ => 0) [])).dev._data_rate
      = datasheet.F_DR_180_SPS ∧
    (Honeywell_RSC.set_data_rate datasheet datasheet.F_DR_180_SPS (rsc1 (fun _ => 0) [])).dev._mode
      = RSC_MODE.FAST_MODE :=
  ⟨datasheet_ratesInOrder,
   (set_data_rate_derives_mode datasheet datasheet_ratesInOrder (rsc1 (fun _ => 0) [])
      datasheet.F_DR_180_SPS).1,
   (set_data_rate_derives_mode datasheet datasheet_ratesInOrder (rsc1 (fun _ => 0) [])
      datasheet.F_DR_180_SPS).2.2.1 (by decide)⟩

/-- C9: under the enumerator order assumed of the header, for every state
and every requested mode, `set_mode` (a total function: it always returns)
leaves the data rate unchanged and stores `NORMAL_MODE` exactly when normal
mode is requested at a normal-family rate, `FAST_MODE` exactly when fast mode
is requested at a fast-family rate, and `NA_MODE` in every other case; so
normal mode at a fast-family rate and fast mode at a normal-family rate both
give `NA_MODE`. -/
theorem set_mode_validates (h : Header) (hord : h.RatesInOrder) (m : Machine) (mode : RSC_MODE) :
    (Honeywell_RSC.set_mode h mode m).dev._data_rate = m.dev._data_rate ∧
    ((Honeywell_RSC.set_mode h mode m).dev._mode = RSC_MODE.NORMAL_MODE ↔
      mode = RSC_MODE.NORMAL_MODE ∧ m.dev._data_rate ∈ h.normalRates) ∧
    ((Honeywell_RSC.set_mode h mode m).dev._mode = RSC_MODE.FAST_MODE ↔
      mode = RSC_MODE.FAST_MODE ∧ m.dev._data_rate ∈ h.fastRates) ∧
    ((Honeywell_RSC.set_mode h mode m).dev._mode = RSC_MODE.NA_MODE ↔
      ¬ (mode = RSC_MODE.NORMAL_MODE ∧ m.dev._data_rate ∈ h.normalRates) ∧
      ¬ (mode = RSC_MODE.FAST_MODE ∧ m.dev._data_rate ∈ h.fastRates)) ∧
    (m.dev._data_rate ∈ h.fastRates →
      (Honeywell_RSC.set_mode h RSC_MODE.NORMAL_MODE m).dev._mode = RSC_MODE.NA_MODE) ∧
    (m.dev._data_rate ∈ h.normalRates →
      (Honeywell_RSC.set_mode h RSC_MODE.FAST_MODE m).dev._mode = RSC_MODE.NA_MODE) := by
  have hx := not_normal_and_fast h hord m.dev._data_rate
  refine ⟨set_mode_data_rate h mode m, ?_, ?_, ?_, ?_, ?_⟩
  · rw [set_mode_mode h hord]
    by_cases h1 : mode = RSC_MODE.NORMAL_MODE ∧ m.dev._data_rate ∈ h.normalRates
    · simp [h1]
    · by_cases h2 : mode = RSC_MODE.FAST_MODE ∧ m.dev._data_rate ∈ h.fastRates
      · simp [h1, h2]
      · simp [h1, h2]
  · rw [set_mode_mode h hord]
    by_cases h1 : mode = RSC_MODE.NORMAL_MODE ∧ m.dev._data_rate ∈ h.normalRates
    · have h2 : ¬ (mode = RSC_MODE.FAST_MODE ∧ m.dev._data_rate ∈ h.fastRates) := by
        rintro ⟨e, _⟩
        rw [h1.1] at e
        exact absurd e (by decide)
      simp [h1, h2]
    · by_cases h2 : mode = RSC_MODE.FAST_MODE ∧ m.dev._data_rate ∈ h.fastRates
      · simp [h1, h2]
      · simp [h1, h2]
  · rw [set_mode_mode h hord]
    by_cases h1 : mode = RSC_MODE.NORMAL_MODE ∧ m.dev._data_rate ∈ h.normalRates
    · simp [h1]
    · by_cases h2 : mode = RSC_MODE.FAST_MODE ∧ m.dev._data_rate ∈ h.fastRates
      · simp [h1, h2]
      · simp [h1, h2]
  · intro hf
    have hn : m.dev._data_rate ∉ h.normalRates := fun hn => hx ⟨hn, hf⟩
    rw [set_mode_mode h hord]
    simp [hn]
  · intro hn
    have hf : m.dev._data_rate ∉ h.fastRates := fun hf => hx ⟨hn, hf⟩
    rw [set_mode_mode h hord]
    simp [hf]

/-- C9 on the data-sheet header: after `set_data_rate(F_DR_40_SPS)`, a
request for normal mode stores `NA_MODE` and keeps the rate. -/
theorem set_mode_validates_witness :
    datasheet.RatesInOrder ∧
    (Honeywell_RSC.set_mode datasheet RSC_MODE.NORMAL_MODE
      (Honeywell_RSC.set_data_rate datasheet datasheet.F_DR_40_SPS (rsc1 (fun _ => 0) []))).dev._mode
      = RSC_MODE.NA_MODE :=
  ⟨datasheet_ratesInOrder,
   (set_mode_validates datasheet datasheet_ratesInOrder
      (Honeywell_RSC.set_data_rate datasheet datasheet.F_DR_40_SPS (rsc1 (fun _ => 0) []))
      RSC_MODE.NORMAL_MODE).2.2.2.2.1 (by decide)⟩

theorem modeConsistent_run (h : Header) (hord : h.RatesInOrder) (op : ModeOp) (m : Machine) :
    ModeConsistent h (op.run h m).dev := by
  cases op with
  | set_data_rate dr =>
    obtain ⟨hrate, hmode⟩ := set_data_rate_spec h hord dr m
    constructor
    · intro hm
      rw [ModeOp.run, hmode] at hm
      rw [ModeOp.run, hrate]
      by_contra hn
      rw [if_neg hn] at hm
      split at hm <;> exact absurd hm (by decide)
    · intro hm
      rw [ModeOp.run, hmode] at hm
      rw [ModeOp.run, hrate]
      by_contra hf
      rw [if_neg hf] at hm
      split at hm <;> exact absurd hm (by decide)
  | set_mode mode =>
    have hrate := set_mode_data_rate h mode m
    have hmode := set_mode_mode h hord mode m
    constructor
    · intro hm
      rw [ModeOp.run, hmode] at hm
      rw [ModeOp.run, hrate]
      by_contra hn
      rw [if_neg (fun hA => hn hA.2)] at hm
      split at hm <;> exact absurd hm (by decide)
    · intro hm
      rw [ModeOp.run, hmode] at hm
      rw [ModeOp.run, hrate]
      by_contra hf
      split at hm
      · exact absurd hm (by decide)
      · rw [if_neg (fun hB => hf hB.2)] at hm
        exact absurd hm (by decide)

theorem modeConsistent_foldl (h : Header) (hord : h.RatesInOrder) (ops : List ModeOp) :
    ∀ m : Machine, ModeConsistent h m.dev →
      ModeConsistent h (ops.foldl (fun m op => op.run h m) m).dev := by
  induction ops with
  | nil => intro m hm; exact hm
  | cons op ops ih =>
    intro m _
    rw [List.foldl_cons]
    exact ih (op.run h m) (modeConsistent_run h hord op m)

theorem init_final_state (h : Header) (hord : h.RatesInOrder) (m0 m1 : Machine)
    (hinit : Honeywell_RSC.init h m0 = Outcome.returned () m1) :
    m1.dev._data_rate = h.N_DR_20_SPS ∧ m1.dev._mode = RSC_MODE.NORMAL_MODE := by
  have hmem : h.N_DR_20_SPS ∈ h.normalRates := by simp [Header.normalRates]
  unfold Honeywell_RSC.init at hinit
  simp only [] at hinit
  split at hinit
  · simp at hinit
  · simp at hinit
  · rename_i u m2 hs
    simp only [Outcome.returned.injEq, true_and] at hinit
    subst hinit
    obtain ⟨hrate, hmode⟩ := set_data_rate_spec h hord h.N_DR_20_SPS (Honeywell_RSC.get_coefficients h m2)
    constructor
    · show (Honeywell_RSC.set_mode h RSC_MODE.NORMAL_MODE _).dev._data_rate = _
      rw [set_mode_data_rate, hrate]
    · show (Honeywell_RSC.set_mode h RSC_MODE.NORMAL_MODE _).dev._mode = _
      rw [set_mode_mode h hord, hrate]
      simp [hmem]

theorem init_returns_on_constant_bus :
    ∃ m1, Honeywell_RSC.init datasheet (rsc1 (fun _ => 0) []) = Outcome.returned () m1 := by
  have hs : (Honeywell_RSC.init datasheet (rsc1 (fun _ => 0) [])).machine?.isSome = true := by
    decide
  rcases hi : Honeywell_RSC.init datasheet (rsc1 (fun _ => 0) []) with ⟨u, m1⟩ | _ | ⟨r, m1⟩
  · exact ⟨m1, rfl⟩
  · rw [hi] at hs
    simp [Outcome.machine?] at hs
  · rw [hi] at hs
    simp [Outcome.machine?] at hs

/-- C10: under the enumerator order assumed of the header, when `init`
returns it leaves the data rate `N_DR_20_SPS` and the mode `NORMAL_MODE`, and
after every finite sequence of `set_data_rate` and `set_mode` calls with
arbitrary arguments from there the stored mode is consistent with the stored
rate: `NORMAL_MODE` only with a normal-family rate, `FAST_MODE` only with a
fast-family rate (the third mode is `NA_MODE`). -/
theorem mode_consistent_after_init (h : Header) (hord : h.RatesInOrder) (m0 m1 : Machine)
    (hinit : Honeywell_RSC.init h m0 = Outcome.returned () m1) (ops : List ModeOp) :
    (m1.dev._data_rate = h.N_DR_20_SPS ∧ m1.dev._mode = RSC_MODE.NORMAL_MODE) ∧
    ModeConsistent h (ops.foldl (fun m op => op.run h m) m1).dev := by
  have hfinal := init_final_state h hord m0 m1 hinit
  refine ⟨hfinal, modeConsistent_foldl h hord ops m1 ?_⟩
  constructor
  · intro _
    rw [hfinal.1]
    simp [Header.normalRates]
  · intro hm
    rw [hfinal.2] at hm
    exact absurd hm (by decide)

/-- C10 on the sensor of `main.cpp` with a bus that answers every transfer
with zero (so the ADC readback matches and `init` returns), followed by
`set_mode(FAST_MODE)`, `set_data_rate(F_DR_90_SPS)` and
`set_mode(NORMAL_MODE)`. -/
theorem mode_consistent_after_init_witness :
    datasheet.RatesInOrder ∧
    ∃ m1, Honeywell_RSC.init datasheet (rsc1 (fun _ => 0) []) = Outcome.returned () m1 ∧
      (m1.dev._data_rate = datasheet.N_DR_20_SPS ∧ m1.dev._mode = RSC_MODE.NORMAL_MODE) ∧
      ModeConsistent datasheet
        ([ModeOp.set_mode RSC_MODE.FAST_MODE, ModeOp.set_data_rate datasheet.F_DR_90_SPS,
          ModeOp.set_mode RSC_MODE.NORMAL_MODE].foldl (fun m op => op.run datasheet m) m1).dev := by
  obtain ⟨m1, h1⟩ := init_returns_on_constant_bus
  exact ⟨datasheet_ratesInOrder, m1, h1,
    mode_consistent_after_init datasheet datasheet_ratesInOrder _ m1 h1 _⟩

/-! ## EEPROM reads -/

theorem World.receive_trace : ∀ (n : Nat) (w : World),
    (World.receive n w).2.trace =
      w.trace ++ (List.range n).map (fun i => Event.transfer 0 (w.miso (w.clocked + i))) := by
  intro n
  induction n with
  | zero => intro w; simp [World.receive]
  | succ n ih =>
    intro w
    simp only [World.receive]
    rw [ih, List.range_succ_eq_map]
    simp [World.transfer, Nat.add_assoc, Nat.add_comm 1]

theorem busLog_append_transfers (dev : Honeywell_RSC) (pin : Int → Level) (n : Nat)
    (tx : Nat → Byte) (rx : Nat → Byte) (rest : List Event) :
    busLog dev pin ((List.range n).map (fun i => Event.transfer (tx i) (rx i)) ++ rest) =
      (List.range n).map (fun i => ⟨tx i, rx i, pin dev._cs_ee_pin, pin dev._cs_adc_pin⟩)
        ++ busLog dev pin rest := by
  induction n generalizing tx rx with
  | zero => simp
  | succ n ih =>
    rw [List.range_succ_eq_map]
    simp only [List.map_cons, List.map_map, List.cons_append, busLog]
    have := ih (fun i => tx (i + 1)) (fun i => rx (i + 1))
    simp only [Function.comp_def, Nat.succ_eq_add_one] at this ⊢
    exact congrArg _ this

theorem eeprom_read_spec (h : Header) (address n : Nat) (m : Machine) :
    (Honeywell_RSC.eeprom_read h address n m).1 =
      (List.range (n % 256)).map (fun i => m.hw.miso (m.hw.clocked + 2 + i)) ∧
    (Honeywell_RSC.eeprom_read h address n m).2.dev = m.dev ∧
    (Honeywell_RSC.eeprom_read h address n m).2.hw.miso = m.hw.miso ∧
    (Honeywell_RSC.eeprom_read h address n m).2.hw.clocked = m.hw.clocked + 2 + n % 256 ∧
    (Honeywell_RSC.eeprom_read h address n m).2.hw.spi = none ∧
    (Honeywell_RSC.eeprom_read h address n m).2.hw.inputs = m.hw.inputs ∧
    (Honeywell_RSC.eeprom_read h address n m).2.hw.pin m.dev._cs_ee_pin = Level.HIGH ∧
    (Honeywell_RSC.eeprom_read h address n m).2.hw.trace =
      m.hw.trace ++
        ([Event.digitalWrite m.dev._cs_adc_pin Level.HIGH,
          Event.digitalWrite m.dev._cs_ee_pin Level.LOW,
          Event.beginTransaction ⟨125000, BitOrder.MSBFIRST, SPIMode.SPI_MODE0⟩,
          Event.transfer (u8 (h.RSC_READ_EEPROM_INSTRUCTION
            ||| ((address % 2 ^ 16 &&& h.RSC_EEPROM_ADDRESS_9TH_BIT_MASK) >>> 5)))
            (m.hw.miso m.hw.clocked),
          Event.transfer (u8 (address % 2 ^ 16 &&& 0xFF)) (m.hw.miso (m.hw.clocked + 1))]
        ++ ((List.range (n % 256)).map
              (fun i => Event.transfer 0 (m.hw.miso (m.hw.clocked + 2 + i)))
            ++ [Event.endTransaction, Event.digitalWrite m.dev._cs_ee_pin Level.HIGH])) := by
  have hn : n % 2 ^ 8 = n % 256 := rfl
  simp only [Honeywell_RSC.eeprom_read, hn]
  generalize hw2 : ((World.transfer _ (World.transfer _ (Honeywell_RSC.select_eeprom m).hw).2).2) = w2
  have hc : w2.clocked = m.hw.clocked + 2 := by rw [← hw2]; rfl
  have hmiso : w2.miso = m.hw.miso := by rw [← hw2]; rfl
  have hinp : w2.inputs = m.hw.inputs := by rw [← hw2]; rfl
  have htr : w2.trace = m.hw.trace ++
      [Event.digitalWrite m.dev._cs_adc_pin Level.HIGH,
        Event.digitalWrite m.dev._cs_ee_pin Level.LOW,
        Event.beginTransaction ⟨125000, BitOrder.MSBFIRST, SPIMode.SPI_MODE0⟩,
        Event.transfer (u8 (h.RSC_READ_EEPROM_INSTRUCTION
          ||| ((address % 2 ^ 16 &&& h.RSC_EEPROM_ADDRESS_9TH_BIT_MASK) >>> 5)))
          (m.hw.miso m.hw.clocked),
        Event.transfer (u8 (address % 2 ^ 16 &&& 0xFF)) (m.hw.miso (m.hw.clocked + 1))] := by
    rw [← hw2]
    simp [Honeywell_RSC.select_eeprom, World.transfer, World.digitalWrite, World.beginTransaction]
  obtain ⟨r1, r2, r3, r4, r5, r6⟩ := World.receive_spec (n % 256) w2
  have r7 := World.receive_trace (n % 256) w2
  refine ⟨?_, rfl, ?_, ?_, rfl, ?_, ?_, ?_⟩
  · rw [r1, hc, hmiso]
  · simp [Honeywell_RSC.deselect_eeprom, World.endTransaction, World.digitalWrite, r3, hmiso]
  · simp [Honeywell_RSC.deselect_eeprom, World.endTransaction, World.digitalWrite, r2, hc]
  · simp [Honeywell_RSC.deselect_eeprom, World.endTransaction, World.digitalWrite, r6, hinp]
  · simp [Honeywell_RSC.deselect_eeprom, World.endTransaction, World.digitalWrite,
      Honeywell_RSC.select_eeprom]
  · simp [Honeywell_RSC.deselect_eeprom, World.endTransaction, World.digitalWrite, r7, htr, hc,
      hmiso, Honeywell_RSC.select_eeprom]

theorem get_pressure_unit_dev (h : Header) (hlen : h.RSC_PRESSURE_UNIT_LEN = 5) (m : Machine) :
    (Honeywell_RSC.get_pressure_unit h m).dev =
      (let l0 := m.hw.miso (m.hw.clocked + 2)
       let l1 := m.hw.miso (m.hw.clocked + 2 + 1)
       let l3 := m.hw.miso (m.hw.clocked + 2 + 3)
       if l3 = ch '2' then
         { m.dev with _pressure_unit := RSC_PRESSURE_UNIT.INH2O, _pressure_unit_name := "inH2O" }
       else if l3 = ch 'a' then
         if l1 = ch 'K' then
           { m.dev with _pressure_unit := RSC_PRESSURE_UNIT.KPASCAL,
                        _pressure_unit_name := "kilopascal" }
         else if l1 = ch 'M' then
           { m.dev with _pressure_unit := RSC_PRESSURE_UNIT.MPASCAL,
                        _pressure_unit_name := "megapascal" }
         else
           { m.dev with _pressure_unit := RSC_PRESSURE_UNIT.PASCAL, _pressure_unit_name := "pascal" }
       else if l3 = ch 'r' then
         if l0 = ch 'm' then
           { m.dev with _pressure_unit := RSC_PRESSURE_UNIT.mBAR, _pressure_unit_name := "millibar" }
         else
           { m.dev with _pressure_unit := RSC_PRESSURE_UNIT.BAR, _pressure_unit_name := "bar" }
       else if l3 = ch 'i' then
         { m.dev with _pressure_unit := RSC_PRESSURE_UNIT.PSI, _pressure_unit_name := "psi" }
       else m.dev) := by
  obtain ⟨h1, h2, _⟩ := eeprom_read_spec h h.RSC_PRESSURE_UNIT_MSB h.RSC_PRESSURE_UNIT_LEN m
  rw [hlen] at h1 h2
  have hr : List.range (5 % 256) = [0, 1, 2, 3, 4] := by decide
  rw [hr] at h1
  simp only [Honeywell_RSC.get_pressure_unit, hlen, h1, h2]
  simp

/-- C11: with `RSC_PRESSURE_UNIT_LEN = 5`, for every label `l0 .. l4`
streamed back by the EEPROM, `get_pressure_unit` decodes by `l3`: `'2'` gives
`INH2O`; `'a'` gives `KPASCAL` when `l1` is `'K'`, `MPASCAL` when it is `'M'`
and `PASCAL` otherwise; `'r'` gives `mBAR` when `l0` is `'m'` and `BAR`
otherwise; `'i'` gives `PSI`; for every other `l3` the stored unit and unit
name stay what they were. -/
theorem get_pressure_unit_decodes (h : Header) (hlen : h.RSC_PRESSURE_UNIT_LEN = 5)
    (m : Machine) :
    let l0 := m.hw.miso (m.hw.clocked + 2)
    let l1 := m.hw.miso (m.hw.clocked + 2 + 1)
    let l3 := m.hw.miso (m.hw.clocked + 2 + 3)
    let d := (Honeywell_RSC.get_pressure_unit h m).dev
    (l3 = ch '2' → d._pressure_unit = RSC_PRESSURE_UNIT.INH2O ∧ d._pressure_unit_name = "inH2O") ∧
    (l3 = ch 'a' → l1 = ch 'K' →
      d._pressure_unit = RSC_PRESSURE_UNIT.KPASCAL ∧ d._pressure_unit_name = "kilopascal") ∧
    (l3 = ch 'a' → l1 = ch 'M' →
      d._pressure_unit = RSC_PRESSURE_UNIT.MPASCAL ∧ d._pressure_unit_name = "megapascal") ∧
    (l3 = ch 'a' → l1 ≠ ch 'K' → l1 ≠ ch 'M' →
      d._pressure_unit = RSC_PRESSURE_UNIT.PASCAL ∧ d._pressure_unit_name = "pascal") ∧
    (l3 = ch 'r' → l0 = ch 'm' →
      d._pressure_unit = RSC_PRESSURE_UNIT.mBAR ∧ d._pressure_unit_name = "millibar") ∧
    (l3 = ch 'r' → l0 ≠ ch 'm' →
      d._pressure_unit = RSC_PRESSURE_UNIT.BAR ∧ d._pressure_unit_name = "bar") ∧
    (l3 = ch 'i' → d._pressure_unit = RSC_PRESSURE_UNIT.PSI ∧ d._pressure_unit_name = "psi") ∧
    (l3 ≠ ch '2' → l3 ≠ ch 'a' → l3 ≠ ch 'r' → l3 ≠ ch 'i' →
      d._pressure_unit = m.dev._pressure_unit ∧
      d._pressure_unit_name = m.dev._pressure_unit_name) := by
  intro l0 l1 l3 d
  have hd : d = _ := get_pressure_unit_dev h hlen m
  have c2a : ch '2' ≠ ch 'a' := by decide
  have c2r : ch '2' ≠ ch 'r' := by decide
  have c2i : ch '2' ≠ ch 'i' := by decide
  have car : ch 'a' ≠ ch 'r' := by decide
  have cai : ch 'a' ≠ ch 'i' := by decide
  have cri : ch 'r' ≠ ch 'i' := by decide
  have cKM : ch 'K' ≠ ch 'M' := by decide
  simp only [] at hd
  refine ⟨?_, ?_, ?_, ?_, ?_, ?_, ?_, ?_⟩
  · intro e3
    rw [hd, if_pos e3]
    exact ⟨rfl, rfl⟩
  · intro e3 e1
    have n2 : ¬ m.hw.miso (m.hw.clocked + 2 + 3) = ch '2' := fun e => c2a (e.symm.trans e3)
    rw [hd, if_neg n2, if_pos e3, if_pos e1]
    exact ⟨rfl, rfl⟩
  · intro e3 e1
    have n2 : ¬ m.hw.miso (m.hw.clocked + 2 + 3) = ch '2' := fun e => c2a (e.symm.trans e3)
    have nK : ¬ m.hw.miso (m.hw.clocked + 2 + 1) = ch 'K' := fun e => cKM (e.symm.trans e1)
    rw [hd, if_neg n2, if_pos e3, if_neg nK, if_pos e1]
    exact ⟨rfl, rfl⟩
  · intro e3 nK nM
    have n2 : ¬ m.hw.miso (m.hw.clocked + 2 + 3) = ch '2' := fun e => c2a (e.symm.trans e3)
    rw [hd, if_neg n2, if_pos e3, if_neg nK, if_neg nM]
    exact ⟨rfl, rfl⟩
  · intro e3 e0
    have n2 : ¬ m.hw.miso (m.hw.clocked + 2 + 3) = ch '2' := fun e => c2r (e.symm.trans e3)
    have na : ¬ m.hw.miso (m.hw.clocked + 2 + 3) = ch 'a' := fun e => car (e.symm.trans e3)
    rw [hd, if_neg n2, if_neg na, if_pos e3, if_pos e0]
    exact ⟨rfl, rfl⟩
  · intro e3 n0
    have n2 : ¬ m.hw.miso (m.hw.clocked + 2 + 3) = ch '2' := fun e => c2r (e.symm.trans e3)
    have na : ¬ m.hw.miso (m.hw.clocked + 2 + 3) = ch 'a' := fun e => car (e.symm.trans e3)
    rw [hd, if_neg n2, if_neg na, if_pos e3, if_neg n0]
    exact ⟨rfl, rfl⟩
  · intro e3
    have n2 : ¬ m.hw.miso (m.hw.clocked + 2 + 3) = ch '2' := fun e => c2i (e.symm.trans e3)
    have na : ¬ m.hw.miso (m.hw.clocked + 2 + 3) = ch 'a' := fun e => cai (e.symm.trans e3)
    have nr : ¬ m.hw.miso (m.hw.clocked + 2 + 3) = ch 'r' := fun e => cri (e.symm.trans e3)
    rw [hd, if_neg n2, if_neg na, if_neg nr, if_pos e3]
    exact ⟨rfl, rfl⟩
  · intro n2 na nr ni
    rw [hd, if_neg n2, if_neg na, if_neg nr, if_neg ni]
    exact ⟨rfl, rfl⟩

/-- C11 on the data-sheet header: the labels `inH2O`, `?KPa`, `?MPa`, `??Pa`,
`mbar`, `?bar` and `?psi` (with `?` a blank, each followed by one more byte)
decode to inH2O, kPa, MPa, Pa, mbar, bar and psi, and the label `atm??`
leaves the unit of the fresh object untouched. -/
theorem get_pressure_unit_decodes_witness :
    datasheet.RSC_PRESSURE_UNIT_LEN = 5 ∧
    (Honeywell_RSC.get_pressure_unit datasheet
      (rsc1 (eeprom_reply [ch 'i', ch 'n', ch 'H', ch '2', ch 'O']) [])).dev._pressure_unit
      = RSC_PRESSURE_UNIT.INH2O ∧
    (Honeywell_RSC.get_pressure_unit datasheet
      (rsc1 (eeprom_reply [ch ' ', ch 'K', ch 'P', ch 'a', ch ' ']) [])).dev._pressure_unit
      = RSC_PRESSURE_UNIT.KPASCAL ∧
    (Honeywell_RSC.get_pressure_unit datasheet
      (rsc1 (eeprom_reply [ch ' ', ch 'M', ch 'P', ch 'a', ch ' ']) [])).dev._pressure_unit
      = RSC_PRESSURE_UNIT.MPASCAL ∧
    (Honeywell_RSC.get_pressure_unit datasheet
      (rsc1 (eeprom_reply [ch ' ', ch ' ', ch 'P', ch 'a', ch ' ']) [])).dev._pressure_unit
      = RSC_PRESSURE_UNIT.PASCAL ∧
    (Honeywell_RSC.get_pressure_unit datasheet
      (rsc1 (eeprom_reply [ch 'm', ch 'b', ch 'a', ch 'r', ch ' ']) [])).dev._pressure_unit
      = RSC_PRESSURE_UNIT.mBAR ∧
    (Honeywell_RSC.get_pressure_unit datasheet
      (rsc1 (eeprom_reply [ch ' ', ch 'b', ch 'a', ch 'r', ch ' ']) [])).dev._pressure_unit
      = RSC_PRESSURE_UNIT.BAR ∧
    (Honeywell_RSC.get_pressure_unit datasheet
      (rsc1 (eeprom_reply [ch ' ', ch 'p', ch 's', ch 'i', ch ' ']) [])).dev._pressure_unit
      = RSC_PRESSURE_UNIT.PSI ∧
    (Honeywell_RSC.get_pressure_unit datasheet
      (rsc1 (eeprom_reply [ch 'a', ch 't', ch 'm', ch ' ', ch ' ']) [])).dev._pressure_unit
      = blank._pressure_unit :=
  ⟨rfl,
   ((get_pressure_unit_decodes datasheet rfl _).1 (by decide)).1,
   ((get_pressure_unit_decodes datasheet rfl _).2.1 (by decide) (by decide)).1,
   ((get_pressure_unit_decodes datasheet rfl _).2.2.1 (by decide) (by decide)).1,
   ((get_pressure_unit_decodes datasheet rfl _).2.2.2.1 (by decide) (by decide) (by decide)).1,
   ((get_pressure_unit_decodes datasheet rfl _).2.2.2.2.1 (by decide) (by decide)).1,
   ((get_pressure_unit_decodes datasheet rfl _).2.2.2.2.2.1 (by decide) (by decide)).1,
   ((get_pressure_unit_decodes datasheet rfl _).2.2.2.2.2.2.1 (by decide)).1,
   ((get_pressure_unit_decodes datasheet rfl _).2.2.2.2.2.2.2 (by decide) (by decide) (by decide)
      (by decide)).1⟩

theorem get_pressure_type_dev (h : Header) (hlen : 0 < h.RSC_SENSOR_TYPE_LEN % 256)
    (m : Machine) :
    (Honeywell_RSC.get_pressure_type h m).dev._pressure_type =
      (if m.hw.miso (m.hw.clocked + 2) = ch 'D' then RSC_PRESSURE_TYPE.DIFFERENTIAL
       else if m.hw.miso (m.hw.clocked + 2) = ch 'A' then RSC_PRESSURE_TYPE.ABSOLUTE
       else if m.hw.miso (m.hw.clocked + 2) = ch 'G' then RSC_PRESSURE_TYPE.GAUGE
       else RSC_PRESSURE_TYPE.DIFFERENTIAL) := by
  obtain ⟨h1, h2, _⟩ := eeprom_read_spec h h.RSC_PRESSURE_REFERENCE h.RSC_SENSOR_TYPE_LEN m
  obtain ⟨k, hk⟩ : ∃ k, h.RSC_SENSOR_TYPE_LEN % 256 = k + 1 := ⟨h.RSC_SENSOR_TYPE_LEN % 256 - 1, by omega⟩
  rw [hk, List.range_succ_eq_map] at h1
  simp only [Honeywell_RSC.get_pressure_type, h1, h2]
  simp only [List.map_cons, List.getD_cons_zero, Nat.add_zero]
  split_ifs <;> rfl

/-- C12: when at least one byte is read (`RSC_SENSOR_TYPE_LEN` is not a
multiple of 256), for every tag byte `t` the EEPROM streams back first,
`get_pressure_type` stores `ABSOLUTE` exactly when `t` is `'A'`, `GAUGE`
exactly when `t` is `'G'` and `DIFFERENTIAL` for every other byte, `'D'`
included; the type stored is a function of `t` alone, whatever the field held
before. -/
theorem get_pressure_type_decodes (h : Header) (hlen : 0 < h.RSC_SENSOR_TYPE_LEN % 256)
    (m : Machine) :
    let t := m.hw.miso (m.hw.clocked + 2)
    let d := (Honeywell_RSC.get_pressure_type h m).dev
    (d._pressure_type = RSC_PRESSURE_TYPE.ABSOLUTE ↔ t = ch 'A') ∧
    (d._pressure_type = RSC_PRESSURE_TYPE.GAUGE ↔ t = ch 'G') ∧
    (d._pressure_type = RSC_PRESSURE_TYPE.DIFFERENTIAL ↔ t ≠ ch 'A' ∧ t ≠ ch 'G') ∧
    (t = ch 'D' → d._pressure_type = RSC_PRESSURE_TYPE.DIFFERENTIAL) ∧
    d._pressure_type =
      (if t = ch 'A' then RSC_PRESSURE_TYPE.ABSOLUTE
       else if t = ch 'G' then RSC_PRESSURE_TYPE.GAUGE else RSC_PRESSURE_TYPE.DIFFERENTIAL) := by
  intro t d
  have hd : d._pressure_type = _ := get_pressure_type_dev h hlen m
  have cDA : ch 'D' ≠ ch 'A' := by decide
  have cDG : ch 'D' ≠ ch 'G' := by decide
  have cAG : ch 'A' ≠ ch 'G' := by decide
  have ht : m.hw.miso (m.hw.clocked + 2) = t := rfl
  rw [ht] at hd
  by_cases eD : t = ch 'D'
  · have nA : t ≠ ch 'A' := fun e => cDA (eD.symm.trans e)
    have nG : t ≠ ch 'G' := fun e => cDG (eD.symm.trans e)
    rw [if_pos eD] at hd
    simp [hd, nA, nG]
  · by_cases eA : t = ch 'A'
    · have nG : t ≠ ch 'G' := fun e => cAG (eA.symm.trans e)
      rw [if_neg eD, if_pos eA] at hd
      simp [hd, eA, cAG, cDA.symm]
    · by_cases eG : t = ch 'G'
      · rw [if_neg eD, if_neg eA, if_pos eG] at hd
        simp [hd, eG, cAG.symm, cDG.symm]
      · rw [if_neg eD, if_neg eA, if_neg eG] at hd
        simp [hd, eG, eD, eA]

/-- C12 on the data-sheet header: the tag `'G'` stores `GAUGE`, the
unrecognised tag `'x'` stores `DIFFERENTIAL`. -/
theorem get_pressure_type_decodes_witness :
    0 < datasheet.RSC_SENSOR_TYPE_LEN % 256 ∧
    (Honeywell_RSC.get_pressure_type datasheet
      (rsc1 (eeprom_reply [ch 'G']) [])).dev._pressure_type = RSC_PRESSURE_TYPE.GAUGE ∧
    (Honeywell_RSC.get_pressure_type datasheet
      (rsc1 (eeprom_reply [ch 'x']) [])).dev._pressure_type = RSC_PRESSURE_TYPE.DIFFERENTIAL :=
  ⟨by decide,
   (get_pressure_type_decodes datasheet (by decide) _).2.1.mpr (by decide),
   (get_pressure_type_decodes datasheet (by decide) _).2.2.1.mpr ⟨by decide, by decide⟩⟩

theorem and_0x100 : ∀ a, a < 512 → (a &&& 0x100) >>> 5 = a / 256 * 8 := by
  set_option maxRecDepth 100000 in decide

theorem or_bit3 (x : Nat) (hx : x / 8 % 2 = 0) : x ||| 8 = x + 8 := by
  have e1 := @Nat.mul_add_lt_is_or 4 (x % 16) (by omega) (x / 16)
  have e2 := @Nat.mul_add_lt_is_or 3 (x % 16) (by omega) 1
  have e3 := @Nat.mul_add_lt_is_or 4 (8 + x % 16) (by omega) (x / 16)
  have hx16 : x = 2 ^ 4 * (x / 16) + x % 16 := by omega
  have h8 : (8 : Nat) = 2 ^ 3 * 1 := by norm_num
  calc x ||| 8 = (2 ^ 4 * (x / 16) ||| x % 16) ||| 8 := by rw [← e1, ← hx16]
    _ = 2 ^ 4 * (x / 16) ||| (2 ^ 3 * 1 ||| x % 16) := by
      rw [Nat.or_assoc, Nat.or_comm (x % 16), ← h8]
    _ = 2 ^ 4 * (x / 16) ||| (8 + x % 16) := by rw [← e2]
    _ = x + 8 := by rw [← e3]; omega

theorem eeprom_command_val (h : Header) (hmask : h.RSC_EEPROM_ADDRESS_9TH_BIT_MASK = 0x100)
    (hop : h.RSC_READ_EEPROM_INSTRUCTION / 8 % 2 = 0) (a : Nat) (ha : a < 512) :
    (eeprom_command h a).2.val = a % 256 ∧
    (eeprom_command h a).1.val = (h.RSC_READ_EEPROM_INSTRUCTION ||| ((a / 256) <<< 3)) % 256 ∧
    (((eeprom_command h a).1.val >>> 3) &&& 1) * 256 + (eeprom_command h a).2.val = a := by
  have ha16 : a % 2 ^ 16 = a := Nat.mod_eq_of_lt (by omega)
  have hlow : a &&& 0xFF = a % 256 := Nat.and_pow_two_sub_one_eq_mod a 8
  have hhigh := and_0x100 a ha
  have h2 : (eeprom_command h a).2.val = a % 256 := by
    show (a % 2 ^ 16 &&& 0xFF) % 256 = a % 256
    rw [ha16, hlow]
    omega
  have h1 : (eeprom_command h a).1.val
      = (h.RSC_READ_EEPROM_INSTRUCTION ||| ((a / 256) <<< 3)) % 256 := by
    show (h.RSC_READ_EEPROM_INSTRUCTION
      ||| ((a % 2 ^ 16 &&& h.RSC_EEPROM_ADDRESS_9TH_BIT_MASK) >>> 5)) % 256 = _
    rw [ha16, hmask, hhigh, Nat.shiftLeft_eq]
  refine ⟨h2, h1, ?_⟩
  rw [h1, h2, Nat.shiftLeft_eq, Nat.shiftRight_eq_div_pow, Nat.and_one_is_mod]
  have hq : a / 256 = 0 ∨ a / 256 = 1 := by omega
  rcases hq with hq | hq
  · rw [hq]
    simp only [Nat.zero_mul, Nat.or_zero]
    omega
  · rw [hq]
    have := or_bit3 h.RSC_READ_EEPROM_INSTRUCTION hop
    simp only [Nat.one_mul, Nat.reducePow] at this ⊢
    rw [this]
    omega

/-- C13: the first five runtime calls of `eeprom_read` are the EEPROM select
and the transfers of its two command bytes.  When the 9th-bit mask is 0x100
and the read opcode has bit 3 clear, for every 9-bit address `a` the second
command byte is `a mod 256`, the first is the opcode OR-ed with bit 8 of `a`
moved to bit 3, `((cmd0 >> 3) & 1) * 256 + cmd1` is `a` again, and so two
different 9-bit addresses never frame the same command. -/
theorem eeprom_read_frames_address (h : Header)
    (hmask : h.RSC_EEPROM_ADDRESS_9TH_BIT_MASK = 0x100)
    (hop : h.RSC_READ_EEPROM_INSTRUCTION / 8 % 2 = 0) :
    (∀ (a n : Nat) (m : Machine),
      (eventsSince m.hw (Honeywell_RSC.eeprom_read h a n m).2.hw).take 5 =
        [Event.digitalWrite m.dev._cs_adc_pin Level.HIGH,
         Event.digitalWrite m.dev._cs_ee_pin Level.LOW,
         Event.beginTransaction ⟨125000, BitOrder.MSBFIRST, SPIMode.SPI_MODE0⟩,
         Event.transfer (eeprom_command h a).1 (m.hw.miso m.hw.clocked),
         Event.transfer (eeprom_command h a).2 (m.hw.miso (m.hw.clocked + 1))]) ∧
    (∀ a, a < 512 →
      (eeprom_command h a).2.val = a % 256 ∧
      (eeprom_command h a).1.val = (h.RSC_READ_EEPROM_INSTRUCTION ||| ((a / 256) <<< 3)) % 256 ∧
      (((eeprom_command h a).1.val >>> 3) &&& 1) * 256 + (eeprom_command h a).2.val = a) ∧
    (∀ a b, a < 512 → b < 512 → eeprom_command h a = eeprom_command h b → a = b) := by
  refine ⟨?_, fun a ha => eeprom_command_val h hmask hop a ha, ?_⟩
  · intro a n m
    obtain ⟨-, -, -, -, -, -, -, htr⟩ := eeprom_read_spec h a n m
    rw [eventsSince, htr, List.drop_left, List.take_left' (by rfl)]
    rfl
  · intro a b ha hb hab
    obtain ⟨-, -, ra⟩ := eeprom_command_val h hmask hop a ha
    obtain ⟨-, -, rb⟩ := eeprom_command_val h hmask hop b hb
    rw [← ra, ← rb, hab]

/-- C13 on the data-sheet header (opcode 0x03, mask 0x100): address 0x123 is
framed as `0B 23`. -/
theorem eeprom_read_frames_address_witness :
    datasheet.RSC_EEPROM_ADDRESS_9TH_BIT_MASK = 0x100 ∧
    datasheet.RSC_READ_EEPROM_INSTRUCTION / 8 % 2 = 0 ∧
    (eeprom_command datasheet 0x123).1.val = 0x0B ∧
    (eeprom_command datasheet 0x123).2.val = 0x23 := by
  obtain ⟨h2, h1, _⟩ := (eeprom_read_frames_address datasheet rfl rfl).2.1 0x123 (by decide)
  exact ⟨rfl, rfl, by rw [h1]; decide, by rw [h2]⟩

/-- C14: when the two chip selects are on different pins, one `eeprom_read`
of `n <= 255` bytes extends the trace by runtime calls among which there are
exactly `n + 2` bus transfers, every one with the EEPROM select LOW and the
ADC select HIGH: the two command bytes, then `n` dummy `0x00` bytes; `data`
holds the `n` bytes received on the dummy transfers, in that order; on return
no transaction is open and both selects are HIGH. -/
theorem eeprom_read_transfers (h : Header) (address n : Nat) (m : Machine) (hn : n ≤ 255)
    (hne : m.dev._cs_ee_pin ≠ m.dev._cs_adc_pin) :
    let r := Honeywell_RSC.eeprom_read h address n m
    let c := m.hw.clocked
    r.2.hw.trace = m.hw.trace ++ eventsSince m.hw r.2.hw ∧
    busLog m.dev m.hw.pin (eventsSince m.hw r.2.hw) =
      [⟨(eeprom_command h address).1, m.hw.miso c, Level.LOW, Level.HIGH⟩,
       ⟨(eeprom_command h address).2, m.hw.miso (c + 1), Level.LOW, Level.HIGH⟩]
      ++ (List.range n).map (fun i => ⟨0, m.hw.miso (c + 2 + i), Level.LOW, Level.HIGH⟩) ∧
    (busLog m.dev m.hw.pin (eventsSince m.hw r.2.hw)).length = n + 2 ∧
    r.1 = (List.range n).map (fun i => m.hw.miso (c + 2 + i)) ∧
    r.1.length = n ∧
    r.2.hw.spi = none ∧
    r.2.hw.pin m.dev._cs_ee_pin = Level.HIGH ∧
    r.2.hw.pin m.dev._cs_adc_pin = Level.HIGH := by
  intro r c
  have hn' : n % 256 = n := Nat.mod_eq_of_lt (by omega)
  have hne2 : m.dev._cs_adc_pin ≠ m.dev._cs_ee_pin := fun e => hne e.symm
  obtain ⟨h1, -, -, -, h5, -, h7, h8⟩ := eeprom_read_spec h address n m
  rw [hn'] at h1 h8
  have hev : eventsSince m.hw (Honeywell_RSC.eeprom_read h address n m).2.hw
      = List.drop m.hw.trace.length (Honeywell_RSC.eeprom_read h address n m).2.hw.trace := rfl
  rw [h8, List.drop_left] at hev
  have hlog : busLog m.dev m.hw.pin
      (eventsSince m.hw (Honeywell_RSC.eeprom_read h address n m).2.hw) =
      [⟨(eeprom_command h address).1, m.hw.miso m.hw.clocked, Level.LOW, Level.HIGH⟩,
       ⟨(eeprom_command h address).2, m.hw.miso (m.hw.clocked + 1), Level.LOW, Level.HIGH⟩]
      ++ (List.range n).map
        (fun i => ⟨0, m.hw.miso (m.hw.clocked + 2 + i), Level.LOW, Level.HIGH⟩) := by
    rw [hev]
    simp only [List.cons_append, List.nil_append, busLog, List.append_eq]
    rw [busLog_append_transfers m.dev _ n (fun _ => 0) (fun i => m.hw.miso (m.hw.clocked + 2 + i))]
    simp [busLog, hne, hne2, eeprom_command]
  simp only [r, c]
  refine ⟨?_, hlog, ?_, h1, ?_, h5, h7, ?_⟩
  · rw [hev]
    exact h8
  · rw [hlog]
    simp
  · rw [h1]
    simp
  · simp [Honeywell_RSC.eeprom_read, Honeywell_RSC.deselect_eeprom, World.endTransaction,
      World.digitalWrite, Honeywell_RSC.select_eeprom, hne2, (World.receive_spec _ _).2.2.2.1,
      World.transfer, World.beginTransaction]

/-- C14 on the sensor of `main.cpp`: reading four bytes at address 130 makes
six transfers and returns the four bytes `DE AD BE EF` streamed back. -/
theorem eeprom_read_transfers_witness :
    (4 : Nat) ≤ 255 ∧ (rsc1 (eeprom_reply [0xDE, 0xAD, 0xBE, 0xEF]) []).dev._cs_ee_pin
      ≠ (rsc1 (eeprom_reply [0xDE, 0xAD, 0xBE, 0xEF]) []).dev._cs_adc_pin ∧
    (busLog (rsc1 (eeprom_reply [0xDE, 0xAD, 0xBE, 0xEF]) []).dev
      (rsc1 (eeprom_reply [0xDE, 0xAD, 0xBE, 0xEF]) []).hw.pin
      (eventsSince (rsc1 (eeprom_reply [0xDE, 0xAD, 0xBE, 0xEF]) []).hw
        (Honeywell_RSC.eeprom_read datasheet 130 4
          (rsc1 (eeprom_reply [0xDE, 0xAD, 0xBE, 0xEF]) [])).2.hw)).length = 4 + 2 ∧
    (Honeywell_RSC.eeprom_read datasheet 130 4
      (rsc1 (eeprom_reply [0xDE, 0xAD, 0xBE, 0xEF]) [])).1 = [0xDE, 0xAD, 0xBE, 0xEF] := by
  have hne : (rsc1 (eeprom_reply [0xDE, 0xAD, 0xBE, 0xEF]) []).dev._cs_ee_pin
      ≠ (rsc1 (eeprom_reply [0xDE, 0xAD, 0xBE, 0xEF]) []).dev._cs_adc_pin := by decide
  obtain ⟨-, -, h3, h4, -⟩ := eeprom_read_transfers datasheet 130 4
    (rsc1 (eeprom_reply [0xDE, 0xAD, 0xBE, 0xEF]) []) (by decide) hne
  refine ⟨by decide, hne, h3, ?_⟩
  rw [h4]
  decide

/-! ## ADC register writes -/

/-- C15: for every `uint8_t` register number and byte count with `reg > 3`,
`num_bytes = 0` or `num_bytes > 4`, `adc_write` returns the machine it was
given: no runtime call is made (no transfer, no pin write) and no member
changes. -/
theorem adc_write_invalid_is_noop (h : Header) (reg num_bytes : Byte) (data : Nat → Byte)
    (m : Machine) (hbad : reg.val > 3 ∨ num_bytes.val = 0 ∨ num_bytes.val > 4) :
    Honeywell_RSC.adc_write h reg.val num_bytes.val data m = m ∧
    eventsSince m.hw (Honeywell_RSC.adc_write h reg.val num_bytes.val data m).hw = [] ∧
    (Honeywell_RSC.adc_write h reg.val num_bytes.val data m).hw.clocked = m.hw.clocked := by
  have hr : reg.val % 2 ^ 8 = reg.val := Nat.mod_eq_of_lt reg.isLt
  have hn : num_bytes.val % 2 ^ 8 = num_bytes.val := Nat.mod_eq_of_lt num_bytes.isLt
  have e : Honeywell_RSC.adc_write h reg.val num_bytes.val data m = m := by
    unfold Honeywell_RSC.adc_write
    simp only [hr, hn]
    by_cases h1 : num_bytes.val ≤ 0 ∨ num_bytes.val > 4
    · rw [if_pos h1]
    · have h2 : reg.val > 3 := by omega
      rw [if_neg h1, if_pos h2]
  rw [e]
  exact ⟨rfl, by simp [eventsSince], rfl⟩

/-- C15 on the sensor of `main.cpp`: writes to register 4, of no byte and of
five bytes change nothing. -/
theorem adc_write_invalid_is_noop_witness :
    Honeywell_RSC.adc_write datasheet 4 1 (fun _ => 0xAA) (rsc1 (fun _ => 0) [])
      = rsc1 (fun _ => 0) [] ∧
    Honeywell_RSC.adc_write datasheet 0 0 (fun _ => 0xAA) (rsc1 (fun _ => 0) [])
      = rsc1 (fun _ => 0) [] ∧
    Honeywell_RSC.adc_write datasheet 0 5 (fun _ => 0xAA) (rsc1 (fun _ => 0) [])
      = rsc1 (fun _ => 0) [] :=
  ⟨(adc_write_invalid_is_noop datasheet 4 1 (fun _ => 0xAA) (rsc1 (fun _ => 0) [])
      (Or.inl (by decide))).1,
   (adc_write_invalid_is_noop datasheet 0 0 (fun _ => 0xAA) (rsc1 (fun _ => 0) [])
      (Or.inr (Or.inl (by decide)))).1,
   (adc_write_invalid_is_noop datasheet 0 5 (fun _ => 0xAA) (rsc1 (fun _ => 0) [])
      (Or.inr (Or.inr (by decide)))).1⟩

theorem send_spec : ∀ (bs : List Byte) (w : World),
    (Honeywell_RSC.send bs w).trace =
      w.trace ++ (List.range bs.length).map
        (fun i => Event.transfer (bs.getD i 0) (w.miso (w.clocked + i))) ∧
    (Honeywell_RSC.send bs w).clocked = w.clocked + bs.length ∧
    (Honeywell_RSC.send bs w).miso = w.miso ∧ (Honeywell_RSC.send bs w).pin = w.pin ∧
    (Honeywell_RSC.send bs w).spi = w.spi ∧ (Honeywell_RSC.send bs w).inputs = w.inputs := by
  intro bs
  induction bs with
  | nil => intro w; simp [Honeywell_RSC.send]
  | cons b bs ih =>
    intro w
    obtain ⟨h1, h2, h3, h4, h5, h6⟩ := ih (w.transfer b).2
    simp only [Honeywell_RSC.send]
    refine ⟨?_, ?_, ?_, ?_, ?_, ?_⟩
    · rw [h1, List.length_cons, List.range_succ_eq_map]
      simp [World.transfer, Nat.add_assoc, Nat.add_comm 1]
    · rw [h2]; simp [World.transfer]; omega
    · rw [h3]; rfl
    · rw [h4]; rfl
    · rw [h5]; rfl
    · rw [h6]; rfl

theorem wreg_opcode (reg nb : Nat) (hreg : reg ≤ 3) (hnb1 : 1 ≤ nb) (hnb4 : nb ≤ 4) :
    (0x40 ||| ((reg <<< 2) &&& 0x0C)) ||| ((nb - 1) &&& 0x03) = (0x40 ||| (reg <<< 2)) ||| (nb - 1) ∧
    (0x40 ||| (reg <<< 2)) ||| (nb - 1) = 0x40 + 4 * reg + (nb - 1) ∧
    ((0x40 + 4 * reg + (nb - 1)) >>> 2) &&& 3 = reg ∧
    ((0x40 + 4 * reg + (nb - 1)) &&& 3) + 1 = nb := by
  interval_cases reg <;> interval_cases nb <;> decide

theorem busLog_tx_transfers (dev : Honeywell_RSC) (pin : Int → Level) (n : Nat)
    (tx : Nat → Byte) (rx : Nat → Byte) :
    (busLog dev pin ((List.range n).map (fun i => Event.transfer (tx i) (rx i))
      ++ [Event.endTransaction, Event.digitalWrite dev._cs_adc_pin Level.HIGH])).map
        BusTransfer.tx = (List.range n).map tx := by
  rw [busLog_append_transfers]
  simp [busLog, Function.comp_def]

/-- C18: with `RSC_ADC_WREG = 0x40` and the masks 0x0C and 0x03, for every
`reg` in 0..3, `num_bytes` in 1..4 and data buffer, `adc_write` makes exactly
these runtime calls: the three of `select_adc`, then `num_bytes + 1`
transfers, then the two of `deselect_adc`.  The bytes sent are the opcode
`RSC_ADC_WREG | (reg << 2) | (num_bytes - 1)` and then `data[0]` to
`data[num_bytes - 1]` in order; the opcode is `0x40 + 4 * reg + (num_bytes -
1)`, so its bits 3..2 are `reg` and its bits 1..0 are `num_bytes - 1`. -/
theorem adc_write_transfers (h : Header) (hwreg : h.RSC_ADC_WREG = 0x40)
    (hrm : h.RSC_ADC_REG_MASK = 0x0C) (hnm : h.RSC_ADC_NUM_BYTES_MASK = 0x03)
    (reg num_bytes : Nat) (data : Nat → Byte) (m : Machine)
    (hreg : reg ≤ 3) (hnb1 : 1 ≤ num_bytes) (hnb4 : num_bytes ≤ 4) :
    let m' := Honeywell_RSC.adc_write h reg num_bytes data m
    let op : Byte := u8 ((h.RSC_ADC_WREG ||| (reg <<< 2)) ||| (num_bytes - 1))
    let c := m.hw.clocked
    m'.hw.trace = m.hw.trace ++ eventsSince m.hw m'.hw ∧
    eventsSince m.hw m'.hw =
      [Event.digitalWrite m.dev._cs_ee_pin Level.HIGH,
       Event.digitalWrite m.dev._cs_adc_pin Level.LOW,
       Event.beginTransaction ⟨125000, BitOrder.MSBFIRST, SPIMode.SPI_MODE1⟩,
       Event.transfer op (m.hw.miso c)]
      ++ ((List.range num_bytes).map (fun i => Event.transfer (data i) (m.hw.miso (c + 1 + i)))
          ++ [Event.endTransaction, Event.digitalWrite m.dev._cs_adc_pin Level.HIGH]) ∧
    (busLog m.dev m.hw.pin (eventsSince m.hw m'.hw)).map BusTransfer.tx
      = op :: (List.range num_bytes).map data ∧
    (busLog m.dev m.hw.pin (eventsSince m.hw m'.hw)).length = num_bytes + 1 ∧
    m'.hw.clocked = c + (num_bytes + 1) ∧
    m'.dev = m.dev ∧
    op.val = 0x40 + 4 * reg + (num_bytes - 1) ∧
    (op.val >>> 2) &&& 3 = reg ∧
    (op.val &&& 3) + 1 = num_bytes := by
  intro m' op c
  obtain ⟨o1, o2, o3, o4⟩ := wreg_opcode reg num_bytes hreg hnb1 hnb4
  have hr : reg % 2 ^ 8 = reg := Nat.mod_eq_of_lt (by omega)
  have hn : num_bytes % 2 ^ 8 = num_bytes := Nat.mod_eq_of_lt (by omega)
  have hop : u8 ((h.RSC_ADC_WREG ||| ((reg <<< 2) &&& h.RSC_ADC_REG_MASK))
      ||| ((num_bytes - 1) &&& h.RSC_ADC_NUM_BYTES_MASK)) = op := by
    simp only [op, hwreg, hrm, hnm]
    rw [o1]
  have hval : op.val = 0x40 + 4 * reg + (num_bytes - 1) := by
    show ((h.RSC_ADC_WREG ||| (reg <<< 2)) ||| (num_bytes - 1)) % 256 = _
    rw [hwreg, o2]
    omega
  have hm' : m' = Honeywell_RSC.deselect_adc
      { Honeywell_RSC.select_adc m with
        hw := Honeywell_RSC.send (op :: (List.range num_bytes).map data)
          (Honeywell_RSC.select_adc m).hw } := by
    simp only [m', Honeywell_RSC.adc_write, hr, hn]
    rw [if_neg (by omega), if_neg (by omega), hop]
  obtain ⟨s1, s2, -⟩ := send_spec (op :: (List.range num_bytes).map data)
    (Honeywell_RSC.select_adc m).hw
  have htr : m'.hw.trace = m.hw.trace ++
      ([Event.digitalWrite m.dev._cs_ee_pin Level.HIGH,
        Event.digitalWrite m.dev._cs_adc_pin Level.LOW,
        Event.beginTransaction ⟨125000, BitOrder.MSBFIRST, SPIMode.SPI_MODE1⟩,
        Event.transfer op (m.hw.miso c)]
      ++ ((List.range num_bytes).map (fun i => Event.transfer (data i) (m.hw.miso (c + 1 + i)))
          ++ [Event.endTransaction, Event.digitalWrite m.dev._cs_adc_pin Level.HIGH])) := by
    rw [hm']
    simp only [Honeywell_RSC.deselect_adc, World.endTransaction, World.digitalWrite, s1]
    simp [Honeywell_RSC.select_adc, World.digitalWrite, World.beginTransaction,
      List.range_succ_eq_map, Nat.add_assoc, Nat.add_comm 1, c, Function.comp_def]
    intro a ha
    simp [List.getElem?_range ha]
  have hev : eventsSince m.hw m'.hw = List.drop m.hw.trace.length m'.hw.trace := rfl
  rw [htr, List.drop_left] at hev
  refine ⟨?_, hev, ?_, ?_, ?_, ?_, hval, ?_, ?_⟩
  · rw [hev]
    exact htr
  · rw [hev]
    simp only [List.cons_append, List.nil_append, busLog, List.append_eq, List.map_cons]
    rw [busLog_tx_transfers]
  · rw [hev]
    simp only [List.cons_append, List.nil_append, busLog, List.append_eq, List.length_cons]
    rw [busLog_append_transfers]
    simp [busLog]
  · rw [hm']
    simp only [Honeywell_RSC.deselect_adc, World.endTransaction, World.digitalWrite, s2]
    simp [Honeywell_RSC.select_adc, World.digitalWrite, World.beginTransaction, c]
  · rw [hm']
    rfl
  · rw [hval]
    exact o3
  · rw [hval]
    exact o4

/-- C18 on the data-sheet header: writing the two bytes `11 22` to register
1 sends `45 11 22`. -/
theorem adc_write_transfers_witness :
    datasheet.RSC_ADC_WREG = 0x40 ∧ datasheet.RSC_ADC_REG_MASK = 0x0C ∧
    datasheet.RSC_ADC_NUM_BYTES_MASK = 0x03 ∧
    (busLog (rsc1 (fun _ => 0) []).dev (rsc1 (fun _ => 0) []).hw.pin
      (eventsSince (rsc1 (fun _ => 0) []).hw
        (Honeywell_RSC.adc_write datasheet 1 2 (fun i => if i = 0 then 0x11 else 0x22)
          (rsc1 (fun _ => 0) [])).hw)).map BusTransfer.tx = [0x45, 0x11, 0x22] := by
  refine ⟨rfl, rfl, rfl, ?_⟩
  rw [(adc_write_transfers datasheet rfl rfl rfl 1 2 (fun i => if i = 0 then 0x11 else 0x22)
    (rsc1 (fun _ => 0) []) (by decide) (by decide) (by decide)).2.2.1]
  decide

theorem setup_adc_of_match (h : Header) (v : Nat → Byte) (m : Machine)
    (hmatch : ∀ i, i < 4 → m.hw.miso (m.hw.clocked + 10 + 2 * i) = v i) :
    ∃ m', Honeywell_RSC.setup_adc h v m = Outcome.returned () m' ∧ m'.dev = m.dev ∧
      m'.hw.trace = m.hw.trace ++
        [Event.digitalWrite m.dev._cs_ee_pin Level.HIGH,
         Event.digitalWrite m.dev._cs_adc_pin Level.LOW,
         Event.beginTransaction ⟨125000, BitOrder.MSBFIRST, SPIMode.SPI_MODE1⟩,
         Event.delayMicroseconds 50,
         Event.transfer (u8 h.RSC_ADC_RESET_COMMAND) (m.hw.miso m.hw.clocked),
         Event.delayMicroseconds 6609,
         Event.transfer 0x40 (m.hw.miso (m.hw.clocked + 1)),
         Event.transfer (v 0) (m.hw.miso (m.hw.clocked + 2)),
         Event.transfer 0x44 (m.hw.miso (m.hw.clocked + 3)),
         Event.transfer (v 1) (m.hw.miso (m.hw.clocked + 4)),
         Event.transfer 0x48 (m.hw.miso (m.hw.clocked + 5)),
         Event.transfer (v 2) (m.hw.miso (m.hw.clocked + 6)),
         Event.transfer 0x4C (m.hw.miso (m.hw.clocked + 7)),
         Event.transfer (v 3) (m.hw.miso (m.hw.clocked + 8)),
         Event.transfer 0x20 (m.hw.miso (m.hw.clocked + 9)),
         Event.transfer 0x00 (v 0),
         Event.transfer 0x24 (m.hw.miso (m.hw.clocked + 11)),
         Event.transfer 0x00 (v 1),
         Event.transfer 0x28 (m.hw.miso (m.hw.clocked + 13)),
         Event.transfer 0x00 (v 2),
         Event.transfer 0x2C (m.hw.miso (m.hw.clocked + 15)),
         Event.transfer 0x00 (v 3),
         Event.delay 5] := by
  have e0 : m.hw.miso (m.hw.clocked + 10) = v 0 := hmatch 0 (by omega)
  have e1 : m.hw.miso (m.hw.clocked + 12) = v 1 := hmatch 1 (by omega)
  have e2 : m.hw.miso (m.hw.clocked + 14) = v 2 := hmatch 2 (by omega)
  have e3 : m.hw.miso (m.hw.clocked + 16) = v 3 := hmatch 3 (by omega)
  have hr : List.range 4 = [0, 1, 2, 3] := by decide
  simp [Honeywell_RSC.setup_adc, hr, Honeywell_RSC.readback, World.transfer,
    Honeywell_RSC.select_adc, World.digitalWrite, World.beginTransaction,
    World.delayMicroseconds, World.delay, Nat.add_assoc, e0, e1, e2, e3,
    Honeywell_RSC.regs, Honeywell_RSC.commandread]

/-- C19: when the four bytes echoed on readback equal the seed bytes `v0 ..
v3`, `setup_adc` returns and the bytes it sent on the bus are, in order: the
reset command; `40 v0 44 v1 48 v2 4C v3` (write opcode `0x40 | (r << 2)`, then
the seed of register `r`); then `20 00 24 00 28 00 2C 00` (read opcode
`0x20 | (r << 2)`, then one dummy byte), the answer to the dummy byte of
register `r` being the echoed byte that equals `v r`.  All seventeen
transfers are in that one order, so every write precedes every readback. -/
theorem setup_adc_byte_sequence (h : Header) (v : Nat → Byte) (m : Machine)
    (hmatch : ∀ i, i < 4 → m.hw.miso (m.hw.clocked + 10 + 2 * i) = v i) :
    ∃ m', Honeywell_RSC.setup_adc h v m = Outcome.returned () m' ∧
      m'.hw.trace = m.hw.trace ++ eventsSince m.hw m'.hw ∧
      (busLog m.dev m.hw.pin (eventsSince m.hw m'.hw)).map BusTransfer.tx =
        [u8 h.RSC_ADC_RESET_COMMAND, 0x40, v 0, 0x44, v 1, 0x48, v 2, 0x4C, v 3,
         0x20, 0x00, 0x24, 0x00, 0x28, 0x00, 0x2C, 0x00] ∧
      (∀ r, r < 4 →
        ((busLog m.dev m.hw.pin (eventsSince m.hw m'.hw)).map BusTransfer.rx).getD (10 + 2 * r) 0
          = v r) ∧
      (∀ r, r < 4 → Honeywell_RSC.regs.getD r 0 = u8 (0x40 ||| (r <<< 2)) ∧
        Honeywell_RSC.commandread.getD r 0 = u8 (0x20 ||| (r <<< 2))) := by
  obtain ⟨m', hret, -, htr⟩ := setup_adc_of_match h v m hmatch
  have hev : eventsSince m.hw m'.hw = List.drop m.hw.trace.length m'.hw.trace := rfl
  rw [htr, List.drop_left] at hev
  refine ⟨m', hret, ?_, ?_, ?_, ?_⟩
  · rw [hev]
    exact htr
  · rw [hev]
    simp [busLog]
  · intro r hr
    rw [hev]
    interval_cases r <;> simp [busLog]
  · intro r hr
    interval_cases r <;> decide

/-- C19 on the scenario of the specification: with seeds `01 02 03 04`
echoed unchanged, the bytes sent are `06 40 01 44 02 48 03 4C 04 20 00 24 00
28 00 2C 00`. -/
theorem setup_adc_byte_sequence_witness :
    ∃ m', Honeywell_RSC.setup_adc datasheet seeds_1234
        (rsc1 (echo_reply 0x01 0x02 0x03 0x04) []) = Outcome.returned () m' ∧
      (busLog (rsc1 (echo_reply 0x01 0x02 0x03 0x04) []).dev
        (rsc1 (echo_reply 0x01 0x02 0x03 0x04) []).hw.pin
        (eventsSince (rsc1 (echo_reply 0x01 0x02 0x03 0x04) []).hw m'.hw)).map BusTransfer.tx =
        [0x06, 0x40, 0x01, 0x44, 0x02, 0x48, 0x03, 0x4C, 0x04,
         0x20, 0x00, 0x24, 0x00, 0x28, 0x00, 0x2C, 0x00] := by
  obtain ⟨m', hret, -, htx, -⟩ := setup_adc_byte_sequence datasheet seeds_1234
    (rsc1 (echo_reply 0x01 0x02 0x03 0x04) []) (by intro i hi; interval_cases i <;> decide)
  exact ⟨m', hret, htx⟩

/-! ## Exactness of the temperature scaling -/

theorem F32.ofBits_normal (s : Bool) (e m : Nat) (he1 : 1 ≤ e) (he2 : e ≤ 254)
    (hm : m < 2 ^ 23) :
    F32.ofBits ((if s then 2 ^ 31 else 0) + e * 2 ^ 23 + m) =
      F32.fin ((if s then -1 else 1) * (2 ^ 23 + m) * 2 ^ e / 2 ^ 150) := by
  have hs : ((if s then 2 ^ 31 else 0) + e * 2 ^ 23 + m) / 2 ^ 31 % 2 = if s then 1 else 0 := by
    cases s <;> simp <;> omega
  have he : ((if s then 2 ^ 31 else 0) + e * 2 ^ 23 + m) / 2 ^ 23 % 256 = e := by
    cases s <;> simp <;> omega
  have hmm : ((if s then 2 ^ 31 else 0) + e * 2 ^ 23 + m) % 2 ^ 23 = m := by
    cases s <;> simp <;> omega
  unfold F32.ofBits
  simp only [hs, he, hmm]
  have h255 : e ≠ 255 := by omega
  have h0 : e ≠ 0 := by omega
  cases s <;> simp [h255, h0]

theorem F32.representable_in_binade (L : Nat) (hL : L ≤ 13) (r : Nat) (h1 : 2 ^ L ≤ r)
    (h2 : r < 2 ^ (L + 1)) (s : Bool) :
    ∃ bits, bits < 2 ^ 32 ∧ F32.ofBits bits = F32.fin ((if s then -1 else 1) * r / 32) := by
  refine ⟨(if s then 2 ^ 31 else 0) + (L + 122) * 2 ^ 23 + (r - 2 ^ L) * 2 ^ (23 - L), ?_, ?_⟩
  · interval_cases L <;> cases s <;> simp at h1 h2 ⊢ <;> omega
  · have hm : (r - 2 ^ L) * 2 ^ (23 - L) < 2 ^ 23 := by
      interval_cases L <;> simp at h1 h2 ⊢ <;> omega
    rw [F32.ofBits_normal s (L + 122) _ (by omega) (by omega) hm]
    congr 1
    have hc : ((r - 2 ^ L : Nat) : ℚ) = (r : ℚ) - 2 ^ L := by
      rw [Nat.cast_sub h1]
      push_cast
      rfl
    push_cast
    rw [hc]
    interval_cases L <;> cases s <;> norm_num <;> ring

theorem exists_binade (r : Nat) (h1 : 1 ≤ r) (h2 : r ≤ 16383) :
    ∃ L, L ≤ 13 ∧ 2 ^ L ≤ r ∧ r < 2 ^ (L + 1) := by
  refine ⟨r.log2, ?_, Nat.log2_self_le (by omega), Nat.lt_log2_self⟩
  have hlt : 2 ^ r.log2 < 2 ^ 14 := lt_of_le_of_lt (Nat.log2_self_le (by omega)) (by omega)
  have := (Nat.pow_lt_pow_iff_right (by decide : 1 < 2)).mp hlt
  omega

theorem F32.scaled_count (r : Int) (hlo : -8192 ≤ r) (hhi : r ≤ 16383) :
    F32.ofInt r * F32.fin (3125 / 100000) = F32.fin ((r : ℚ) / 32) ∧
    ∃ bits, bits < 2 ^ 32 ∧ F32.ofBits bits = F32.fin ((r : ℚ) / 32) := by
  have hmul : F32.ofInt r * F32.fin (3125 / 100000) = F32.fin ((r : ℚ) / 32) := by
    rw [F32.ofInt_mul_fin]
    unfold F32.finite F32.zero
    by_cases h0 : r = 0
    · subst h0
      norm_num
    · have hr : (r : ℚ) ≠ 0 := by exact_mod_cast h0
      have : (r : ℚ) * (3125 / 100000) = (r : ℚ) / 32 := by ring
      simp [hr, this]
  refine ⟨hmul, ?_⟩
  rcases lt_trichotomy r 0 with hneg | hzero | hpos
  · obtain ⟨L, hL, a1, a2⟩ := exists_binade r.natAbs (by omega) (by omega)
    obtain ⟨bits, hb, hv⟩ := F32.representable_in_binade L hL r.natAbs a1 a2 true
    refine ⟨bits, hb, ?_⟩
    rw [hv]
    congr 1
    have : ((r.natAbs : Nat) : ℚ) = -(r : ℚ) := by
      have h : ((r.natAbs : Nat) : Int) = -r := by omega
      have e : (((r.natAbs : Nat) : Int) : ℚ) = ((r.natAbs : Nat) : ℚ) := Int.cast_natCast _
      rw [← e, h, Int.cast_neg]
    simp only [if_true, this]
    ring
  · subst hzero
    exact ⟨0, by norm_num, by norm_num [F32.ofBits, F32.zero]⟩
  · obtain ⟨L, hL, a1, a2⟩ := exists_binade r.natAbs (by omega) (by omega)
    obtain ⟨bits, hb, hv⟩ := F32.representable_in_binade L hL r.natAbs a1 a2 false
    refine ⟨bits, hb, ?_⟩
    rw [hv]
    congr 1
    have : ((r.natAbs : Nat) : ℚ) = (r : ℚ) := by
      have h : ((r.natAbs : Nat) : Int) = r := by omega
      have e : (((r.natAbs : Nat) : Int) : ℚ) = ((r.natAbs : Nat) : ℚ) := Int.cast_natCast _
      rw [← e, h]
    simp [this]

theorem start_conversion_dev (h : Header) (channel : Nat) (m m1 : Machine)
    (hs : Honeywell_RSC.start_conversion h channel m = some m1) : m1.dev = m.dev := by
  unfold Honeywell_RSC.start_conversion at hs
  simp only [] at hs
  split at hs
  · exact absurd hs (by simp)
  · split at hs
    · exact absurd hs (by simp)
    · simp only [Option.some.injEq] at hs
      rw [← hs]
      rfl

theorem read_conversion_dev (h : Header) (m m2 : Machine) (arr : List Byte)
    (hs : Honeywell_RSC.read_conversion h m = some (arr, m2)) : m2.dev = m.dev := by
  unfold Honeywell_RSC.read_conversion at hs
  split at hs
  · exact absurd hs (by simp)
  · simp only [Option.some.injEq, Prod.mk.injEq] at hs
    rw [← hs.2]
    rfl

theorem get_temperature_returned (h : Header) (m m' : Machine) (v : F32)
    (hret : Honeywell_RSC.get_temperature h m = Outcome.returned v m') :
    (∃ b0 b1 : Byte, m'.dev._t_raw = ((((b0.val <<< 8) ||| b1.val) >>> 2 : Nat) : Int)) ∧
    v = F32.ofInt m'.dev._t_raw * F32.fin (3125 / 100000) ∧
    m'.dev._coeff_matrix = m.dev._coeff_matrix ∧
    m'.dev._pressure_range = m.dev._pressure_range ∧
    m'.dev._pressure_minimum = m.dev._pressure_minimum := by
  unfold Honeywell_RSC.get_temperature at hret
  split at hret
  · exact absurd hret (by simp)
  · rename_i m1 h1
    split at hret
    · exact absurd hret (by simp)
    · rename_i arr m2 h2
      have d1 := start_conversion_dev h _ m m1 h1
      have d2 := read_conversion_dev h m1 m2 arr h2
      simp only [Outcome.returned.injEq] at hret
      obtain ⟨hv, hm⟩ := hret
      subst hm
      subst hv
      refine ⟨⟨arr.getD 0 0, arr.getD 1 0, rfl⟩, rfl, ?_, ?_, ?_⟩
      · show m2.dev._coeff_matrix = _
        rw [d2, d1]
      · show m2.dev._pressure_range = _
        rw [d2, d1]
      · show m2.dev._pressure_minimum = _
        rw [d2, d1]

theorem returned_of_isSome {α : Type} (o : Outcome α) (hs : o.machine?.isSome = true) :
    ∃ v m', o = Outcome.returned v m' := by
  cases o with
  | returned v m' => exact ⟨v, m', rfl⟩
  | stalled => simp [Outcome.machine?] at hs
  | halted r m' => simp [Outcome.machine?] at hs

/-- C16: whenever `get_temperature` returns, the raw count `r` it stored
lies in 0..16383 and the value returned is `r * 0.03125 = r / 32` exactly;
that value is the value of a binary32 bit pattern, so storing it in a
`float` rounds nothing.  The same holds for every count from -8192 to 16383:
`r * 0.03125` is `r / 32` and is a binary32 value. -/
theorem get_temperature_exact (h : Header) (m : Machine) :
    (∀ (v : F32) (m' : Machine), Honeywell_RSC.get_temperature h m = Outcome.returned v m' →
      0 ≤ m'.dev._t_raw ∧ m'.dev._t_raw ≤ 16383 ∧
      v = F32.fin ((m'.dev._t_raw : ℚ) / 32) ∧
      v.toRat? = some ((m'.dev._t_raw : ℚ) * (3125 / 100000)) ∧
      ∃ bits, bits < 2 ^ 32 ∧ F32.ofBits bits = v) ∧
    (∀ r : Int, -8192 ≤ r → r ≤ 16383 →
      F32.ofInt r * F32.fin (3125 / 100000) = F32.fin ((r : ℚ) / 32) ∧
      ∃ bits, bits < 2 ^ 32 ∧ F32.ofBits bits = F32.fin ((r : ℚ) / 32)) := by
  refine ⟨?_, fun r hlo hhi => F32.scaled_count r hlo hhi⟩
  intro v m' hret
  obtain ⟨⟨b0, b1, hraw⟩, hv, -⟩ := get_temperature_returned h m m' v hret
  have hb0 := b0.isLt
  have hb1 := b1.isLt
  have hrange : 0 ≤ m'.dev._t_raw ∧ m'.dev._t_raw ≤ 16383 := by
    rw [hraw, or_byte_pair _ _ hb1, Nat.shiftRight_eq_div_pow]
    constructor
    · exact Int.natCast_nonneg _
    · have : (b0.val * 256 + b1.val) / 2 ^ 2 ≤ 16383 := by omega
      exact_mod_cast this
  obtain ⟨hmul, bits, hb, hbits⟩ := F32.scaled_count m'.dev._t_raw (by omega) hrange.2
  refine ⟨hrange.1, hrange.2, ?_, ?_, bits, hb, ?_⟩
  · rw [hv, hmul]
  · rw [hv, hmul]
    show some _ = some _
    congr 1
    ring
  · rw [hv, hmul, hbits]

/-- C16 on a run in which the ADC answers `19 00 00`: the count stored is
1600 and the temperature returned is 50. -/
theorem get_temperature_exact_witness :
    ∃ (v : F32) (m' : Machine),
      Honeywell_RSC.get_temperature datasheet
        (rsc1 (temperature_reply 0x19 0x00 0x00) [Level.HIGH, Level.LOW, Level.LOW])
        = Outcome.returned v m' ∧
      m'.dev._t_raw = 1600 ∧ v = F32.fin 50 ∧ ∃ bits, bits < 2 ^ 32 ∧ F32.ofBits bits = v := by
  obtain ⟨v, m', hret⟩ := returned_of_isSome
    (Honeywell_RSC.get_temperature datasheet
      (rsc1 (temperature_reply 0x19 0x00 0x00) [Level.HIGH, Level.LOW, Level.LOW])) (by decide)
  obtain ⟨-, -, hv, -, hbits⟩ := (get_temperature_exact datasheet
    (rsc1 (temperature_reply 0x19 0x00 0x00) [Level.HIGH, Level.LOW, Level.LOW])).1 v m' hret
  have hraw : ((Honeywell_RSC.get_temperature datasheet
      (rsc1 (temperature_reply 0x19 0x00 0x00) [Level.HIGH, Level.LOW, Level.LOW])).machine?.map
      (fun m => m.dev._t_raw)) = some 1600 := by decide
  rw [hret] at hraw
  simp only [Outcome.machine?, Option.map_some', Option.some.injEq] at hraw
  refine ⟨v, m', hret, hraw, ?_, hbits⟩
  rw [hv, hraw]
  norm_num

/-! ## Calibration data are read-only after initialisation -/

theorem read_pressure_returned (h : Header) (m m' : Machine) (v : F32)
    (hret : Honeywell_RSC.read_pressure h m = Outcome.returned v m') :
    calibration m'.dev = calibration m.dev ∧
    v = (Honeywell_RSC.compensate m.dev._coeff_matrix m.dev._pressure_range
      m.dev._pressure_minimum m.dev._t_raw m'.dev.p_raw).2 := by
  unfold Honeywell_RSC.read_pressure at hret
  split at hret
  · exact absurd hret (by simp)
  · rename_i arr m2 h2
    have d2 := read_conversion_dev h m m2 arr h2
    simp only [Outcome.returned.injEq] at hret
    obtain ⟨hv, hm⟩ := hret
    subst hm
    subst hv
    constructor
    · show calibration { m2.dev with p_raw := _, p_int1_c := _ } = _
      rw [← d2]
      rfl
    · show (Honeywell_RSC.compensate m2.dev._coeff_matrix _ _ _ _).2 = _
      rw [d2]

theorem set_mode_calibration (h : Header) (mode : RSC_MODE) (m : Machine) :
    calibration (Honeywell_RSC.set_mode h mode m).dev = calibration m.dev := by
  cases mode <;> simp only [Honeywell_RSC.set_mode] <;> (try split) <;> rfl

/-- C17: `get_temperature`, `select_pressure` and `read_pressure` (whenever
they return), `set_data_rate`, `set_mode` and `adc_write` leave the
coefficient matrix, the pressure range and the pressure minimum exactly as
they were, for every state and every bus response; the value `read_pressure`
returns is computed from those unchanged members. -/
theorem calibration_unchanged (h : Header) (m : Machine) :
    (∀ (v : F32) (m' : Machine), Honeywell_RSC.get_temperature h m = Outcome.returned v m' →
      calibration m'.dev = calibration m.dev) ∧
    (∀ (u : Unit) (m' : Machine), Honeywell_RSC.select_pressure h m = Outcome.returned u m' →
      calibration m'.dev = calibration m.dev) ∧
    (∀ (v : F32) (m' : Machine), Honeywell_RSC.read_pressure h m = Outcome.returned v m' →
      calibration m'.dev = calibration m.dev ∧
      v = (Honeywell_RSC.compensate m.dev._coeff_matrix m.dev._pressure_range
        m.dev._pressure_minimum m.dev._t_raw m'.dev.p_raw).2) ∧
    (∀ dr : Nat, calibration (Honeywell_RSC.set_data_rate h dr m).dev = calibration m.dev) ∧
    (∀ mode : RSC_MODE, calibration (Honeywell_RSC.set_mode h mode m).dev = calibration m.dev) ∧
    (∀ (reg num_bytes : Nat) (data : Nat → Byte),
      calibration (Honeywell_RSC.adc_write h reg num_bytes data m).dev = calibration m.dev) := by
  refine ⟨?_, ?_, ?_, ?_, ?_, ?_⟩
  · intro v m' hret
    obtain ⟨-, -, c1, c2, c3⟩ := get_temperature_returned h m m' v hret
    simp only [calibration, c1, c2, c3]
  · intro u m' hret
    unfold Honeywell_RSC.select_pressure at hret
    split at hret
    · exact absurd hret (by simp)
    · rename_i m1 h1
      simp only [Outcome.returned.injEq, true_and] at hret
      rw [← hret, start_conversion_dev h _ m m1 h1]
  · intro v m' hret
    exact read_pressure_returned h m m' v hret
  · intro dr
    unfold Honeywell_RSC.set_data_rate
    simp only []
    split_ifs <;> rw [set_mode_calibration] <;> rfl
  · intro mode
    exact set_mode_calibration h mode m
  · intro reg num_bytes data
    unfold Honeywell_RSC.adc_write
    simp only []
    split_ifs <;> rfl

/-- C17 on runs that return: a temperature reading, a pressure selection
and a pressure reading on the sensor of `main.cpp`, calibrated with unit span
and shape, leave the calibration data of that sensor in place. -/
theorem calibration_unchanged_witness :
    (∃ (v : F32) (m' : Machine),
      Honeywell_RSC.get_temperature datasheet
        (calibrated shape_unit_span (F32.fin 100) (F32.fin 0) 0
          (rsc1 (fun _ => 0) [Level.HIGH, Level.LOW, Level.LOW])) = Outcome.returned v m' ∧
      calibration m'.dev = (shape_unit_span, F32.fin 100, F32.fin 0)) ∧
    (∃ (u : Unit) (m' : Machine),
      Honeywell_RSC.select_pressure datasheet
        (calibrated shape_unit_span (F32.fin 100) (F32.fin 0) 0
          (rsc1 (fun _ => 0) [Level.HIGH, Level.LOW])) = Outcome.returned u m' ∧
      calibration m'.dev = (shape_unit_span, F32.fin 100, F32.fin 0)) ∧
    (∃ (v : F32) (m' : Machine),
      Honeywell_RSC.read_pressure datasheet
        (calibrated shape_unit_span (F32.fin 100) (F32.fin 0) 0
          (rsc1 (fun _ => 0) [Level.LOW])) = Outcome.returned v m' ∧
      calibration m'.dev = (shape_unit_span, F32.fin 100, F32.fin 0)) := by
  refine ⟨?_, ?_, ?_⟩
  · obtain ⟨v, m', hret⟩ := returned_of_isSome
      (Honeywell_RSC.get_temperature datasheet
        (calibrated shape_unit_span (F32.fin 100) (F32.fin 0) 0
          (rsc1 (fun _ => 0) [Level.HIGH, Level.LOW, Level.LOW]))) (by decide)
    exact ⟨v, m', hret, (calibration_unchanged datasheet _).1 v m' hret⟩
  · obtain ⟨u, m', hret⟩ := returned_of_isSome
      (Honeywell_RSC.select_pressure datasheet
        (calibrated shape_unit_span (F32.fin 100) (F32.fin 0) 0
          (rsc1 (fun _ => 0) [Level.HIGH, Level.LOW]))) (by decide)
    exact ⟨u, m', hret, (calibration_unchanged datasheet _).2.1 u m' hret⟩
  · obtain ⟨v, m', hret⟩ := returned_of_isSome
      (Honeywell_RSC.read_pressure datasheet
        (calibrated shape_unit_span (F32.fin 100) (F32.fin 0) 0
          (rsc1 (fun _ => 0) [Level.LOW]))) (by decide)
    exact ⟨v, m', hret, ((calibration_unchanged datasheet _).2.2.1 v m' hret).1⟩

end RSC
